import Mathlib

/-!
# Address resolution and topology aggregation in `kubectl-hlf/cmd/helpers/hlf.go`

A shallow embedding of the helpers that resolve the public and private address of
the certificate authorities, peers and orderer nodes of a ledger network, of the
aggregations that group peers into organizations and orderer nodes into ordering
services, and of the lookups by full name and by host and port.

Conventions of the embedding:

* a Go pointer to a record is an `Option`, `nil` being `none`;
* a Go slice is a `List`, a `nil` slice and an empty slice both being `[]`;
* Go's `int` is `Int`, and the verb `%d` prints it with `toString`;
* a function returning `(T, error)` returns `Except String T`, the string being
  the error message;
* the two client handles are records holding the answers of the calls made
  through them, so that every function is a pure function of its arguments.
-/

namespace Helpers

deriving instance DecidableEq for Except

/-! ## Records of the `hlfv1alpha1` API read by the helpers -/

/-- Modelled from the spec: the identity part of a resource record (`name`, `namespace`
and the labels used by label selectors); the declaration of `v1.ObjectMeta` is not among
the sources, the fields are those `hlf.go` reads. -/
structure ObjectMeta where
  Name : String := ""
  Namespace : String := ""
  Labels : List (String × String) := []
deriving DecidableEq, Repr

/-- Modelled from the spec: `MeshIngress{hosts: seq<string>, port: int}`; the declaration of
`hlfv1alpha1.FabricIstio` is not among the sources. -/
structure FabricIstio where
  Port : Int := 0
  Hosts : List String := []
deriving DecidableEq, Repr

/-- Modelled from the spec: `GatewayIngress{hosts: seq<string>, port: int}`; the declaration
of `hlfv1alpha1.FabricGatewayApi` is not among the sources. -/
structure FabricGatewayApi where
  Port : Int := 0
  Hosts : List String := []
deriving DecidableEq, Repr

/-- Modelled from the spec: `ReverseProxyIngress{hosts: seq<string>}` (implicit port 443);
the declaration of `hlfv1alpha1.FabricTraefik` is not among the sources. -/
structure FabricTraefik where
  Hosts : List String := []
deriving DecidableEq, Repr

/-- Modelled from the spec: one registered identity of a CA registry, with the enroll ID
(`Name`) and the enroll secret (`Pass`) that `MapClusterCA` reads. -/
structure FabricCAIdentity where
  Name : String := ""
  Pass : String := ""
deriving DecidableEq, Repr

/-- Modelled from the spec: the identity registry of a CA (`Spec.CA.Registry`). -/
structure FabricCARegistry where
  Identities : List FabricCAIdentity := []
deriving DecidableEq, Repr

/-- Modelled from the spec: the CA configuration holding the registry (`Spec.CA`). -/
structure FabricCAItemConf where
  Registry : FabricCARegistry := {}
deriving DecidableEq, Repr

/-- Modelled from the spec: the exposure configuration and registry of a certificate
authority record; the declaration of `hlfv1alpha1.FabricCASpec` is not among the sources,
the fields are those `hlf.go` reads. -/
structure FabricCASpec where
  Hosts : List String := []
  Istio : Option FabricIstio := none
  GatewayApi : Option FabricGatewayApi := none
  Traefik : Option FabricTraefik := none
  CA : FabricCAItemConf := {}
deriving DecidableEq, Repr

/-- Modelled from the spec: the runtime status of a certificate authority, with the
node-port of the fallback mechanism. -/
structure FabricCAStatus where
  NodePort : Int := 0
deriving DecidableEq, Repr

/-- Modelled from the spec: a certificate-authority record (identity, spec, status). -/
structure FabricCA where
  ObjectMeta : ObjectMeta := {}
  Spec : FabricCASpec := {}
  Status : FabricCAStatus := {}
deriving DecidableEq, Repr

/-- Modelled from the spec: the membership ID and exposure configuration of a peer record;
the declaration of `hlfv1alpha1.FabricPeerSpec` is not among the sources. -/
structure FabricPeerSpec where
  MspID : String := ""
  Istio : Option FabricIstio := none
  Traefik : Option FabricTraefik := none
  GatewayApi : Option FabricGatewayApi := none
deriving DecidableEq, Repr

/-- Modelled from the spec: the runtime status of a peer, with its node-port. -/
structure FabricPeerStatus where
  NodePort : Int := 0
deriving DecidableEq, Repr

/-- Modelled from the spec: a peer record (identity, spec, status). -/
structure FabricPeer where
  ObjectMeta : ObjectMeta := {}
  Spec : FabricPeerSpec := {}
  Status : FabricPeerStatus := {}
deriving DecidableEq, Repr

/-- Modelled from the spec: the membership ID, the client exposure configuration and the
independent admin exposure configuration of an orderer node; the declaration of
`hlfv1alpha1.FabricOrdererNodeSpec` is not among the sources. -/
structure FabricOrdererNodeSpec where
  MspID : String := ""
  Istio : Option FabricIstio := none
  Traefik : Option FabricTraefik := none
  GatewayApi : Option FabricGatewayApi := none
  AdminIstio : Option FabricIstio := none
  AdminTraefik : Option FabricTraefik := none
deriving DecidableEq, Repr

/-- Modelled from the spec: the runtime status of an orderer node, with the client
node-port and the distinct admin node-port. -/
structure FabricOrdererNodeStatus where
  NodePort : Int := 0
  AdminPort : Int := 0
deriving DecidableEq, Repr

/-- Modelled from the spec: an orderer-node record (identity, spec, status). -/
structure FabricOrdererNode where
  ObjectMeta : ObjectMeta := {}
  Spec : FabricOrdererNodeSpec := {}
  Status : FabricOrdererNodeStatus := {}
deriving DecidableEq, Repr

/-- Modelled from the spec: the spec of an explicit ordering-service record. -/
structure FabricOrderingServiceSpec where
  MspID : String := ""
deriving DecidableEq, Repr

/-- Modelled from the spec: the status of an explicit ordering-service record, opaque to
the helpers. -/
structure FabricOrderingServiceStatus where
  Status : String := ""
deriving DecidableEq, Repr

/-- Modelled from the spec: an explicit ordering-service record. -/
structure FabricOrderingService where
  ObjectMeta : ObjectMeta := {}
  Spec : FabricOrderingServiceSpec := {}
  Status : FabricOrderingServiceStatus := {}
deriving DecidableEq, Repr

/-- The promoted field `Name` of the embedded object metadata. -/
def FabricCA.Name (in_ : FabricCA) : String := in_.ObjectMeta.Name

/-- The promoted field `Namespace` of the embedded object metadata. -/
def FabricCA.Namespace (in_ : FabricCA) : String := in_.ObjectMeta.Namespace

/-- The promoted field `Name` of the embedded object metadata. -/
def FabricPeer.Name (in_ : FabricPeer) : String := in_.ObjectMeta.Name

/-- The promoted field `Namespace` of the embedded object metadata. -/
def FabricPeer.Namespace (in_ : FabricPeer) : String := in_.ObjectMeta.Namespace

/-- The promoted field `Name` of the embedded object metadata. -/
def FabricOrdererNode.Name (in_ : FabricOrdererNode) : String := in_.ObjectMeta.Name

/-- The promoted field `Namespace` of the embedded object metadata. -/
def FabricOrdererNode.Namespace (in_ : FabricOrdererNode) : String := in_.ObjectMeta.Namespace

/-- Modelled from the spec: the method `FullName` of a peer record, absent from the sources;
the qualified full name is `name.namespace`. -/
def FabricPeer.FullName (in_ : FabricPeer) : String := in_.Name ++ "." ++ in_.Namespace

/-- Modelled from the spec: the method `FullName` of an orderer-node record, absent from the
sources; the qualified full name is `name.namespace`. -/
def FabricOrdererNode.FullName (in_ : FabricOrdererNode) : String :=
  in_.Name ++ "." ++ in_.Namespace

/-! ## The client handles -/

/-- Modelled from the spec: the handle on the cluster infrastructure (`*kubernetes.Clientset`).
The helpers use it for one thing, public-IP discovery, so the record holds the outcome of
that discovery: an externally routable address, or the error of a failed discovery. -/
structure Clientset where
  PublicIP : Except String String
deriving DecidableEq, Repr

/-- Modelled from the spec: `discover-public-ip() -> string, fails when no externally routable
address can be determined`; `utils.GetPublicIPKubernetes` is absent from the sources. -/
def GetPublicIPKubernetes (clientset : Clientset) : Except String String :=
  clientset.PublicIP

/-- Modelled from the spec: the handle on the resource store (`*operatorv1.Clientset`), with
the answer of each list query: list-all-of-kind(scope) for the four kinds, the orderer-node
query also taking the label selector (empty when none is given). -/
structure OperatorClientset where
  FabricCAs : String → Except String (List FabricCA)
  FabricPeers : String → Except String (List FabricPeer)
  FabricOrdererNodes : String → String → Except String (List FabricOrdererNode)
  FabricOrderingServices : String → Except String (List FabricOrderingService)

/-! ## Domain objects (`hlf.go`, lines 17-92) -/

abbrev OrganizationType := String

def PeerType : OrganizationType := "PEER"

def OrdererType : OrganizationType := "ORDERER"

structure OrgUser where
  Name : String := ""
  Cert : String := ""
  Key : String := ""
deriving DecidableEq, Repr

structure Identity where
  Key : String := ""
  Cert : String := ""
deriving DecidableEq, Repr

structure ClusterCA where
  Object : FabricCA := {}
  Spec : FabricCASpec := {}
  Status : FabricCAStatus := {}
  Name : String := ""
  PublicURL : String := ""
  PrivateURL : String := ""
  EnrollID : String := ""
  EnrollPWD : String := ""
  Item : FabricCA := {}
  Namespace : String := ""
deriving DecidableEq, Repr

structure ClusterOrdererNode where
  ObjectMeta : ObjectMeta := {}
  Name : String := ""
  PublicURL : String := ""
  PrivateURL : String := ""
  AdminURL : String := ""
  Spec : FabricOrdererNodeSpec := {}
  Status : FabricOrdererNodeStatus := {}
  Item : FabricOrdererNode := {}
  Namespace : String := ""
deriving DecidableEq, Repr

structure ClusterOrderingService where
  MSPID : String := ""
  Name : String := ""
  Object : FabricOrderingService := {}
  Spec : FabricOrderingServiceSpec := {}
  Status : FabricOrderingServiceStatus := {}
  Orderers : List ClusterOrdererNode := []
deriving DecidableEq, Repr

structure ClusterPeer where
  Name : String := ""
  Object : FabricPeer := {}
  Spec : FabricPeerSpec := {}
  Status : FabricPeerStatus := {}
  PublicURL : String := ""
  PrivateURL : String := ""
  TLSCACert : String := ""
  RootCert : String := ""
  Identity : Identity := {}
  MSPID : String := ""
  ObjectMeta : ObjectMeta := {}
  Namespace : String := ""
deriving DecidableEq, Repr

/-- The field `Type` of the source is named `Type_` here, `Type` being reserved. -/
structure Organization where
  Type_ : OrganizationType := ""
  MspID : String := ""
  OrdererNodes : List ClusterOrdererNode := []
  Peers : List ClusterPeer := []
  Users : List OrgUser := []
deriving DecidableEq, Repr

structure HostPort where
  Host : String := ""
  Port : Int := 0
deriving DecidableEq, Repr

/-! ## Address resolution (`hlf.go`, lines 331-355 and 402-577)

In each resolver the Go guard `m != nil && len(m.Hosts) > 0` followed by the reads
`m.Hosts[0]` and `m.Port` is the pattern `some { Hosts := host :: _, Port := port }`; every
other shape of `m` (a `nil` pointer, or a record with no host) falls to the next guard. -/

def GetCAHostPort (clientset : Clientset) (node : FabricCA) : Except String HostPort :=
  match node.Spec.Istio with
  | some { Hosts := host :: _, Port := port } => .ok { Host := host, Port := port }
  | _ =>
    match node.Spec.GatewayApi with
    | some { Hosts := host :: _, Port := port } => .ok { Host := host, Port := port }
    | _ =>
      match node.Spec.Traefik with
      | some { Hosts := host :: _ } => .ok { Host := host, Port := 443 }
      | _ =>
        match GetPublicIPKubernetes clientset with
        | .error err => .error err
        | .ok k8sIP => .ok { Host := k8sIP, Port := node.Status.NodePort }

def GetPeerHostPort (clientset : Clientset) (node : FabricPeer) : Except String HostPort :=
  match node.Spec.Istio with
  | some { Hosts := host :: _, Port := port } => .ok { Host := host, Port := port }
  | _ =>
    match node.Spec.Traefik with
    | some { Hosts := host :: _ } => .ok { Host := host, Port := 443 }
    | _ =>
      match node.Spec.GatewayApi with
      | some { Hosts := host :: _, Port := port } => .ok { Host := host, Port := port }
      | _ =>
        match GetPublicIPKubernetes clientset with
        | .error err => .error err
        | .ok k8sIP => .ok { Host := k8sIP, Port := node.Status.NodePort }

def GetOrdererHostPort (clientset : Clientset) (node : FabricOrdererNode) :
    Except String HostPort :=
  match node.Spec.Istio with
  | some { Hosts := host :: _, Port := port } => .ok { Host := host, Port := port }
  | _ =>
    match node.Spec.Traefik with
    | some { Hosts := host :: _ } => .ok { Host := host, Port := 443 }
    | _ =>
      match node.Spec.GatewayApi with
      | some { Hosts := host :: _, Port := port } => .ok { Host := host, Port := port }
      | _ =>
        match GetPublicIPKubernetes clientset with
        | .error err => .error err
        | .ok k8sIP => .ok { Host := k8sIP, Port := node.Status.NodePort }

def GetOrdererHostAndPort (clientset : Clientset) (nodeSpec : FabricOrdererNodeSpec)
    (nodeStatus : FabricOrdererNodeStatus) : Except String (String × Int) :=
  match nodeSpec.Istio with
  | some { Hosts := host :: _, Port := port } => .ok (host, port)
  | _ =>
    match nodeSpec.Traefik with
    | some { Hosts := host :: _ } => .ok (host, 443)
    | _ =>
      match GetPublicIPKubernetes clientset with
      | .error err => .error err
      | .ok hostName => .ok (hostName, nodeStatus.NodePort)

/-- The source calls discovery first and returns its error; only then does it read
`nodeSpec.Istio.Hosts`, without a `nil` guard: on a `nil` mesh pointer the read is a run-time
fault, which is the outer `none`. -/
def GetPeerHostAndPort (clientset : Clientset) (nodeSpec : FabricPeerSpec)
    (nodeStatus : FabricPeerStatus) : Option (Except String (String × Int)) :=
  match GetPublicIPKubernetes clientset with
  | .error err => some (.error err)
  | .ok hostName =>
    match nodeSpec.Istio with
    | none => none
    | some { Hosts := host :: _, Port := port } => some (.ok (host, port))
    | some _ => some (.ok (hostName, nodeStatus.NodePort))

def GetOrdererAdminHostAndPort (clientset : Clientset) (nodeSpec : FabricOrdererNodeSpec)
    (nodeStatus : FabricOrdererNodeStatus) : Except String (String × Int) :=
  match nodeSpec.AdminIstio with
  | some { Hosts := host :: _, Port := port } => .ok (host, port)
  | _ =>
    match nodeSpec.AdminTraefik with
    | some { Hosts := host :: _ } => .ok (host, 443)
    | _ =>
      match GetPublicIPKubernetes clientset with
      | .error err => .error err
      | .ok hostName => .ok (hostName, nodeStatus.AdminPort)

def GetOrdererPublicURL (clientset : Clientset) (node : FabricOrdererNode) :
    Except String String :=
  match GetOrdererHostPort clientset node with
  | .error err => .error err
  | .ok hostPort => .ok (hostPort.Host ++ ":" ++ toString hostPort.Port)

def GetAdminOrdererPublicURL (clientset : Clientset) (node : FabricOrdererNode) :
    Except String String :=
  match GetOrdererAdminHostAndPort clientset node.Spec node.Status with
  | .error err => .error err
  | .ok (host, port) => .ok ("https://" ++ host ++ ":" ++ toString port)

def GetOrdererPrivateURL (node : FabricOrdererNode) : String :=
  node.Name ++ "." ++ node.Namespace ++ ":" ++ "7050"

def GetCAPublicURL (clientset : Clientset) (node : FabricCA) : Except String String :=
  match GetCAHostPort clientset node with
  | .error err => .error err
  | .ok hostPort => .ok (hostPort.Host ++ ":" ++ toString hostPort.Port)

def GetCAPrivateURL (node : FabricCA) : String :=
  node.Name ++ "." ++ node.Namespace ++ ":" ++ "7054"

def GetPeerPublicURL (clientset : Clientset) (node : FabricPeer) : Except String String :=
  match GetPeerHostPort clientset node with
  | .error err => .error err
  | .ok hostPort => .ok (hostPort.Host ++ ":" ++ toString hostPort.Port)

def GetPeerPrivateURL (node : FabricPeer) : String :=
  node.Name ++ "." ++ node.Namespace ++ ":" ++ "7051"

/-- The helper `GetKubeClient` of the fallback branch is not among the sources; its outcome
is the argument `kubeClient`. -/
def GetURLForCA (kubeClient : Except String Clientset) (certAuth : ClusterCA) :
    Except String String :=
  match certAuth.Spec.Istio with
  | some { Hosts := host :: _, Port := port } =>
    .ok ("https://" ++ host ++ ":" ++ toString port)
  | _ =>
    match certAuth.Spec.GatewayApi with
    | some { Hosts := host :: _, Port := port } =>
      .ok ("https://" ++ host ++ ":" ++ toString port)
    | _ =>
      match certAuth.Spec.Traefik with
      | some { Hosts := host :: _ } => .ok ("https://" ++ host ++ ":" ++ toString (443 : Int))
      | _ =>
        match kubeClient with
        | .error err => .error err
        | .ok client =>
          match GetPublicIPKubernetes client with
          | .error err => .error err
          | .ok host => .ok ("https://" ++ host ++ ":" ++ toString certAuth.Status.NodePort)

/-! ## Domain mapping (`hlf.go`, lines 94-162) -/

def MapClusterCA (clientSet : Clientset) (certAuth : FabricCA) : Except String ClusterCA :=
  let certauthName := certAuth.Name ++ "." ++ certAuth.Namespace
  let privateURL := GetCAPrivateURL certAuth
  match GetCAPublicURL clientSet certAuth with
  | .error err => .error err
  | .ok publicURL =>
    let certAuthIdentities := certAuth.Spec.CA.Registry.Identities
    let (enrollId, enrollPwd) :=
      match certAuthIdentities with
      | first :: _ => (first.Name, first.Pass)
      | [] => ("", "")
    .ok { Object := certAuth
          Spec := certAuth.Spec
          Status := certAuth.Status
          Name := certauthName
          Namespace := certAuth.Namespace
          PublicURL := publicURL
          PrivateURL := privateURL
          EnrollID := enrollId
          EnrollPWD := enrollPwd
          Item := certAuth }

def MapClusterPeer (clientSet : Clientset) (peer : FabricPeer) : Except String ClusterPeer :=
  match GetPeerPublicURL clientSet peer with
  | .error err => .error err
  | .ok publicURL =>
    let privateURL := GetPeerPrivateURL peer
    .ok { Name := peer.FullName
          ObjectMeta := peer.ObjectMeta
          Namespace := peer.Namespace
          Object := peer
          Spec := peer.Spec
          Status := peer.Status
          Identity := {}
          PublicURL := publicURL
          PrivateURL := privateURL
          MSPID := peer.Spec.MspID }

def MapClusterOrdererNode (clientSet : Clientset) (ordNode : FabricOrdererNode) :
    Except String ClusterOrdererNode :=
  match GetOrdererPublicURL clientSet ordNode with
  | .error err => .error err
  | .ok publicURL =>
    match GetAdminOrdererPublicURL clientSet ordNode with
    | .error err => .error err
    | .ok adminPublicURL =>
      let privateURL := GetOrdererPrivateURL ordNode
      .ok { Name := ordNode.FullName
            AdminURL := adminPublicURL
            Namespace := ordNode.Namespace
            ObjectMeta := ordNode.ObjectMeta
            Spec := ordNode.Spec
            Status := ordNode.Status
            PublicURL := publicURL
            PrivateURL := privateURL }

/-! ## Peer aggregation (`hlf.go`, lines 603-643)

The Go map `orgMap` of type `map[string]*Organization` is a list of entries with at most
one entry per key. A read `orgMap[key]` is `OrgMap.find`, a write through the map or through
the pointer it holds is `OrgMap.store`. Go leaves the order in which `range` visits a map
unspecified: the order used by one call is the argument `rangeOrder`, any rearrangement of
the entries. -/

abbrev OrgMap := List (String × Organization)

/-- The read `org, ok := orgMap[key]`: `none` when `ok` is false. -/
def OrgMap.find : OrgMap → String → Option Organization
  | [], _ => none
  | (k, o) :: rest, key => if k = key then some o else OrgMap.find rest key

/-- The write `orgMap[key] = org`: the entry of `key` is replaced, or added when there is
none. -/
def OrgMap.store : OrgMap → String → Organization → OrgMap
  | [], key, org => [(key, org)]
  | (k, o) :: rest, key, org =>
    if k = key then (key, org) :: rest else (k, o) :: OrgMap.store rest key org

/-- An order in which `range` may visit the entries of a map: any rearrangement of them. -/
structure RangeOrder where
  visit : OrgMap → OrgMap
  perm : ∀ m, (visit m).Perm m

/-- The first loop of `GetClusterPeers`: each record is mapped and appended, the first
mapping error ends the call. -/
def mapPeerItems (clientSet : Clientset) (items : List FabricPeer) :
    Except String (List ClusterPeer) :=
  items.foldlM
    (fun peers peer =>
      match MapClusterPeer clientSet peer with
      | .error err => .error err
      | .ok clusterPeer => .ok (peers ++ [clusterPeer]))
    []

/-- The body of the grouping loop of `GetClusterPeers`: the organization of the peer's MSP ID
is read from the map, created with no peer when the map has none, and the peer is appended
to its `Peers`. -/
def groupPeer (orgMap : OrgMap) (peer : ClusterPeer) : OrgMap :=
  let mspID := peer.Spec.MspID
  let org :=
    match orgMap.find mspID with
    | some org => org
    | none => { Type_ := PeerType, MspID := mspID, OrdererNodes := [], Peers := [] }
  orgMap.store mspID { org with Peers := org.Peers ++ [peer] }

def GetClusterPeers (rangeOrder : RangeOrder) (clientSet : Clientset)
    (oclient : OperatorClientset) (ns : String) :
    Except String (List Organization × List ClusterPeer) :=
  match oclient.FabricPeers ns with
  | .error err => .error err
  | .ok peerResponse =>
    match mapPeerItems clientSet peerResponse with
    | .error err => .error err
    | .ok peers =>
      let orgMap := peers.foldl groupPeer []
      let organizations := (rangeOrder.visit orgMap).map (fun entry => entry.2)
      .ok (organizations, peers)

/-- The invariant of the grouping loop of `GetClusterPeers`, between the map built so far
and the peers visited so far: the keys are distinct; every entry is keyed by the MSP ID of
its organization, has type `PEER`, holds at least one peer and only peers of its MSP ID; and
the peers of all entries together are the visited peers, each as often as it was visited. -/
def Grouped (m : OrgMap) (ps : List ClusterPeer) : Prop :=
  (m.map (fun e => e.1)).Nodup ∧
  (∀ e ∈ m, e.2.MspID = e.1 ∧ e.2.Type_ = PeerType ∧ e.2.Peers ≠ [] ∧
    ∀ p ∈ e.2.Peers, p.Spec.MspID = e.1) ∧
  (m.flatMap (fun e => e.2.Peers)).Perm ps

/-! ## Listings, lookups and orderer aggregation (`hlf.go`, lines 163-330 and 356-395, 578-602) -/

/-- The loop shared by the listings of `hlf.go`:
`for _, x := range items { y, err := f(x); if err != nil { return nil, err }; out = append(out, y) }`,
started with `out = init`; the first error ends the loop and is returned. -/
def appendEach {α β : Type} (f : α → Except String β) (items : List α) (init : List β) :
    Except String (List β) :=
  items.foldlM
    (fun out x =>
      match f x with
      | .error err => .error err
      | .ok y => .ok (out ++ [y]))
    init

/-- Modelled from the spec: the method `FullName` of an ordering-service record, absent from
the sources; the qualified full name is `name.namespace`. -/
def FabricOrderingService.FullName (in_ : FabricOrderingService) : String :=
  in_.ObjectMeta.Name ++ "." ++ in_.ObjectMeta.Namespace

def GetClusterCAs (clientSet : Clientset) (oclient : OperatorClientset) (ns : String) :
    Except String (List ClusterCA) :=
  match oclient.FabricCAs ns with
  | .error err => .error err
  | .ok certAuthsRes => appendEach (MapClusterCA clientSet) certAuthsRes []

/-- The body of the first loop of `GetClusterOrderers` (lines 202-224): the public URL, the
private URL and the admin URL of a listed node, in that order, and the domain object built
from them; `Namespace` and `Item` are left at their zero value. -/
def implicitOrdererNode (clientSet : Clientset) (ordNode : FabricOrdererNode) :
    Except String ClusterOrdererNode :=
  match GetOrdererPublicURL clientSet ordNode with
  | .error err => .error err
  | .ok publicURL =>
    let privateURL := GetOrdererPrivateURL ordNode
    match GetAdminOrdererPublicURL clientSet ordNode with
    | .error err => .error err
    | .ok adminPublicURL =>
      .ok { AdminURL := adminPublicURL
            Name := ordNode.FullName
            ObjectMeta := ordNode.ObjectMeta
            Spec := ordNode.Spec
            Status := ordNode.Status
            PublicURL := publicURL
            PrivateURL := privateURL }

/-- The body of the second loop of `GetClusterOrderers` (lines 226-255): the orderer nodes
labelled `release=<name of the service>` are listed, and each becomes a domain object with
its `Name`, `Spec` and `Status` only. -/
def explicitOrderingService (oclient : OperatorClientset) (ns : String)
    (ordService : FabricOrderingService) : Except String ClusterOrderingService :=
  match oclient.FabricOrdererNodes ns ("release=" ++ ordService.ObjectMeta.Name) with
  | .error err => .error err
  | .ok ordNodesRes =>
    .ok { Name := ordService.FullName
          Object := ordService
          MSPID := ordService.Spec.MspID
          Spec := ordService.Spec
          Status := ordService.Status
          Orderers := ordNodesRes.map (fun ordNode =>
            { Name := ordNode.FullName, Spec := ordNode.Spec, Status := ordNode.Status }) }

/-- Lines 194-225 of `GetClusterOrderers`: the implicit service of the listed nodes, when
there is one. The source appends the service to `orderers` before its nodes are resolved and
fills it through the pointer; an error discards it with the rest, so it is built here once
its nodes are known. -/
def implicitOrderingServices (clientSet : Clientset) (ordererNodes : List FabricOrdererNode) :
    Except String (List ClusterOrderingService) :=
  match ordererNodes with
  | [] => .ok []
  | first :: _ =>
    match appendEach (implicitOrdererNode clientSet) ordererNodes [] with
    | .error err => .error err
    | .ok nodes =>
      .ok [{ Name := first.FullName, MSPID := first.Spec.MspID, Orderers := nodes }]

/-- Lines 256-269 of `GetClusterOrderers`: nothing at all when there is no ordering service,
else one organization for each ordering service, with no node and no peer. -/
def ordererOrganizations (orderers : List ClusterOrderingService) :
    List Organization × List ClusterOrderingService :=
  if orderers.length = 0 then ([], [])
  else
    (orderers.map (fun ord =>
        { Type_ := OrdererType, MspID := ord.MSPID, OrdererNodes := [], Peers := [] }),
     orderers)

/-- The list call with no option is the query with the empty label selector. -/
def GetClusterOrderers (clientSet : Clientset) (oclient : OperatorClientset) (ns : String) :
    Except String (List Organization × List ClusterOrderingService) :=
  match oclient.FabricOrdererNodes ns "" with
  | .error err => .error err
  | .ok ordererNodes =>
    match oclient.FabricOrderingServices ns with
    | .error err => .error err
    | .ok orderingServices =>
      match implicitOrderingServices clientSet ordererNodes with
      | .error err => .error err
      | .ok orderers =>
        match appendEach (explicitOrderingService oclient ns) orderingServices orderers with
        | .error err => .error err
        | .ok orderers => .ok (ordererOrganizations orderers)

/-- The body of the loop of `GetClusterOrdererNodes` (lines 284-307). -/
def listedOrdererNode (clientSet : Clientset) (ordNode : FabricOrdererNode) :
    Except String ClusterOrdererNode :=
  match GetOrdererPublicURL clientSet ordNode with
  | .error err => .error err
  | .ok publicURL =>
    let privateURL := GetOrdererPrivateURL ordNode
    match GetAdminOrdererPublicURL clientSet ordNode with
    | .error err => .error err
    | .ok adminPublicURL =>
      .ok { Name := ordNode.FullName
            AdminURL := adminPublicURL
            Namespace := ordNode.Namespace
            PublicURL := publicURL
            PrivateURL := privateURL
            Spec := ordNode.Spec
            Status := ordNode.Status
            Item := ordNode }

def GetClusterOrdererNodes (clientSet : Clientset) (oclient : OperatorClientset)
    (ns : String) : Except String (List ClusterOrdererNode) :=
  match oclient.FabricOrdererNodes ns "" with
  | .error err => .error err
  | .ok ordererNodeList => appendEach (listedOrdererNode clientSet) ordererNodeList []

/-- Go's `strings.Split` on a one-character separator, over the characters of the string:
the pieces between the separators, one more than there are separators. -/
def splitChars (sep : Char) : List Char → List (List Char)
  | [] => [[]]
  | c :: cs =>
    if c = sep then [] :: splitChars sep cs
    else
      match splitChars sep cs with
      | piece :: pieces => (c :: piece) :: pieces
      | [] => [[c]]

/-- The call `strings.Split(s, ".")`. -/
def splitDot (s : String) : List String :=
  (splitChars '.' s.data).map String.mk

/-- The call `strings.Contains(s, ".")`. -/
def containsDot (s : String) : Bool :=
  s.data.contains '.'

/-- Lines 311-317 of `GetCertAuthByURL`: the name looked for and the namespace listed, from
the host. -/
def splitHost (host : String) : String × String :=
  match containsDot host, splitDot host with
  | true, [first, second] => (first, second)
  | _, _ => (host, "")

/-- Modelled from the spec: the helper `utils.Contains`, absent from the sources; the lookup
"matches an exact configured host", which is membership of the string in the list. -/
def Contains (slice : List String) (s : String) : Bool :=
  slice.contains s

def GetCertAuthByURL (clientSet : Clientset) (oclient : OperatorClientset) (host : String)
    (port : Int) : Except String ClusterCA :=
  let (cahost, ns) := splitHost host
  match GetClusterCAs clientSet oclient ns with
  | .error err => .error err
  | .ok certAuths =>
    match certAuths.find? (fun certAuth =>
        Contains certAuth.Spec.Hosts host || certAuth.Item.Name == cahost ||
          (certAuth.Status.NodePort != 7054 && certAuth.Status.NodePort == port)) with
    | some certAuth => .ok certAuth
    | none => .error ("CA with host=" ++ host ++ " port=" ++ toString port ++ " not found")

def GetPeerByFullName (rangeOrder : RangeOrder) (clientSet : Clientset)
    (oclient : OperatorClientset) (name : String) : Except String ClusterPeer :=
  match GetClusterPeers rangeOrder clientSet oclient "" with
  | .error err => .error err
  | .ok (_, peers) =>
    match peers.find? (fun peer => peer.Name == name) with
    | some peer => .ok peer
    | none => .error ("Peer with name=" ++ name ++ " not found")

def GetOrdererNodeByFullName (clientSet : Clientset) (oclient : OperatorClientset)
    (name : String) : Except String ClusterOrdererNode :=
  match GetClusterOrdererNodes clientSet oclient "" with
  | .error err => .error err
  | .ok ordererNodes =>
    match ordererNodes.find? (fun ordNode => ordNode.Name == name) with
    | some ordNode => .ok ordNode
    | none => .error ("Orderer Node with name=" ++ name ++ " not found")

def GetCertAuthByFullName (clientSet : Clientset) (oclient : OperatorClientset)
    (name : String) : Except String ClusterCA :=
  match GetClusterCAs clientSet oclient "" with
  | .error err => .error err
  | .ok certAuths =>
    match certAuths.find? (fun certAuth => certAuth.Name == name) with
    | some certAuth => .ok certAuth
    | none => .error ("CA with name=" ++ name ++ " not found")

/-- Modelled from the spec: the resource store behind the handle, with its
list-all-of-kind(scope) and list-of-kind-with-label-selector(scope, selector) queries. The
empty scope is every namespace; the empty selector selects every record, a selector
`key=value` the records carrying that label. -/
def storeOf (cas : List FabricCA) (peers : List FabricPeer) (nodes : List FabricOrdererNode)
    (services : List FabricOrderingService) : OperatorClientset :=
  { FabricCAs := fun ns =>
      .ok (cas.filter (fun r => ns == "" || r.ObjectMeta.Namespace == ns))
    FabricPeers := fun ns =>
      .ok (peers.filter (fun r => ns == "" || r.ObjectMeta.Namespace == ns))
    FabricOrdererNodes := fun ns selector =>
      .ok (nodes.filter (fun r =>
        (ns == "" || r.ObjectMeta.Namespace == ns) &&
          (selector == "" ||
            r.ObjectMeta.Labels.any (fun label => label.1 ++ "=" ++ label.2 == selector))))
    FabricOrderingServices := fun ns =>
      .ok (services.filter (fun r => ns == "" || r.ObjectMeta.Namespace == ns)) }

/-- The outcome of a lookup, for the statements: the mapping of the record found, or the
not-found error when there is none. -/
def lookupResult {α β : Type} (found : Option α) (f : α → Except String β)
    (notFound : String) : Except String β :=
  match found with
  | some r => f r
  | none => .error notFound

/-- The condition of the scan of `GetCertAuthByURL`, for the statements: the host is one of
the configured hosts, or the record name is the name looked for, or the node-port is the
port looked for and is not 7054. -/
def caMatches (host cahost : String) (port : Int) (c : ClusterCA) : Prop :=
  host ∈ c.Spec.Hosts ∨ c.Item.Name = cahost ∨
    (c.Status.NodePort = port ∧ c.Status.NodePort ≠ 7054)

instance caMatchesDecidable (host cahost : String) (port : Int) (c : ClusterCA) :
    Decidable (caMatches host cahost port c) := by
  unfold caMatches
  infer_instance

/-! ## The hosts of a mechanism, for the statements -/

/-- The host list of the mesh ingress, empty when the mechanism is absent. -/
def meshHosts (m : Option FabricIstio) : List String :=
  match m with
  | some i => i.Hosts
  | none => []

/-- The host list of the gateway ingress, empty when the mechanism is absent. -/
def gatewayHosts (m : Option FabricGatewayApi) : List String :=
  match m with
  | some g => g.Hosts
  | none => []

/-- The host list of the reverse-proxy ingress, empty when the mechanism is absent. -/
def proxyHosts (m : Option FabricTraefik) : List String :=
  match m with
  | some t => t.Hosts
  | none => []

/-- A mesh ingress present with an empty host list replaced by an absent one. -/
def dropEmptyMesh (m : Option FabricIstio) : Option FabricIstio :=
  if meshHosts m = [] then none else m

/-- A gateway ingress present with an empty host list replaced by an absent one. -/
def dropEmptyGateway (m : Option FabricGatewayApi) : Option FabricGatewayApi :=
  if gatewayHosts m = [] then none else m

/-- A reverse-proxy ingress present with an empty host list replaced by an absent one. -/
def dropEmptyProxy (m : Option FabricTraefik) : Option FabricTraefik :=
  if proxyHosts m = [] then none else m

/-- The fallback address: what discovery answers, paired with a node-port. -/
def fallbackHostPort (clientset : Clientset) (nodePort : Int) : Except String HostPort :=
  match GetPublicIPKubernetes clientset with
  | .ok ip => .ok { Host := ip, Port := nodePort }
  | .error err => .error err

/-- The fallback address as a pair, for the resolvers that return a pair. -/
def fallbackPair (clientset : Clientset) (nodePort : Int) : Except String (String × Int) :=
  match GetPublicIPKubernetes clientset with
  | .ok ip => .ok (ip, nodePort)
  | .error err => .error err

/-- The text `https://host:port` of a resolved address. -/
def httpsURL (hostPort : HostPort) : String :=
  "https://" ++ hostPort.Host ++ ":" ++ toString hostPort.Port

/-- The text `host:port` of a resolved address, with no scheme. -/
def bareURL (hostPort : HostPort) : String :=
  hostPort.Host ++ ":" ++ toString hostPort.Port

/-! ## Example records -/

/-- The peer of the scenario: `peer0` in namespace `org1`, mesh hosts
`["peer0.example.com"]` on port 443, node-port 30051. -/
def peer0 : FabricPeer :=
  { ObjectMeta := { Name := "peer0", Namespace := "org1" }
    Spec := { MspID := "Org1MSP", Istio := some { Port := 443, Hosts := ["peer0.example.com"] } }
    Status := { NodePort := 30051 } }

/-- A certificate authority exposed through the mesh on port 443. -/
def ca0 : FabricCA :=
  { ObjectMeta := { Name := "ca0", Namespace := "org1" }
    Spec := { Istio := some { Port := 443, Hosts := ["ca0.example.com", "ca0.alt"] } }
    Status := { NodePort := 30054 } }

/-- An orderer node exposed through the mesh on port 443. -/
def ord0 : FabricOrdererNode :=
  { ObjectMeta := { Name := "ord0", Namespace := "ordns" }
    Spec := { MspID := "OrdererMSP",
              Istio := some { Port := 443, Hosts := ["ord0.example.com"] } }
    Status := { NodePort := 30050, AdminPort := 30053 } }

/-- A certificate authority whose mesh and gateway are present with no host and whose
reverse proxy is absent. -/
def caBare : FabricCA :=
  { ObjectMeta := { Name := "ca1", Namespace := "org1" }
    Spec := { Istio := some { Port := 443, Hosts := [] },
              GatewayApi := some { Port := 443, Hosts := [] } }
    Status := { NodePort := 30054 } }

/-- A peer with no exposure mechanism at all. -/
def peerBare : FabricPeer :=
  { ObjectMeta := { Name := "peer1", Namespace := "org1" }
    Spec := { MspID := "Org1MSP" }
    Status := { NodePort := 30051 } }

/-- An orderer node whose reverse proxy is present with no host, the rest absent. -/
def ordBare : FabricOrdererNode :=
  { ObjectMeta := { Name := "ord1", Namespace := "ordns" }
    Spec := { MspID := "OrdererMSP", Traefik := some { Hosts := [] } }
    Status := { NodePort := 30050, AdminPort := 30053 } }

/-- A peer whose mesh is absent and whose gateway and reverse proxy both have a host. -/
def peerBoth : FabricPeer :=
  { ObjectMeta := { Name := "peer2", Namespace := "org1" }
    Spec := { MspID := "Org1MSP",
              Traefik := some { Hosts := ["proxy.example.com"] },
              GatewayApi := some { Port := 8443, Hosts := ["gw.example.com"] } }
    Status := { NodePort := 30051 } }

/-- A certificate authority whose mesh is present with no host and whose gateway and
reverse proxy both have a host. -/
def caBoth : FabricCA :=
  { ObjectMeta := { Name := "ca2", Namespace := "org1" }
    Spec := { Istio := some { Port := 443, Hosts := [] },
              GatewayApi := some { Port := 8443, Hosts := ["gw.example.com"] },
              Traefik := some { Hosts := ["proxy.example.com"] } }
    Status := { NodePort := 30054 } }

/-- A certificate authority exposed through the reverse proxy only. -/
def caProxy : FabricCA :=
  { ObjectMeta := { Name := "ca3", Namespace := "org1" }
    Spec := { Traefik := some { Hosts := ["proxy.example.com"] } }
    Status := { NodePort := 30054 } }

/-- An orderer node whose only configured mechanism is the gateway. -/
def ordGateway : FabricOrdererNode :=
  { ObjectMeta := { Name := "ord2", Namespace := "ordns" }
    Spec := { MspID := "OrdererMSP",
              GatewayApi := some { Port := 8443, Hosts := ["gw.example.com"] } }
    Status := { NodePort := 30050, AdminPort := 30053 } }

/-- An orderer node whose admin endpoint is exposed through the admin mesh. -/
def ordAdminMesh : FabricOrdererNode :=
  { ObjectMeta := { Name := "ord3", Namespace := "ordns" }
    Spec := { MspID := "OrdererMSP",
              Traefik := some { Hosts := ["proxy.example.com"] },
              AdminIstio := some { Port := 9443, Hosts := ["admin.example.com"] },
              AdminTraefik := some { Hosts := ["admin-proxy.example.com"] } }
    Status := { NodePort := 30050, AdminPort := 30053 } }

/-- An orderer node whose admin endpoint is exposed through the admin reverse proxy. -/
def ordAdminProxy : FabricOrdererNode :=
  { ObjectMeta := { Name := "ord4", Namespace := "ordns" }
    Spec := { MspID := "OrdererMSP",
              Istio := some { Port := 443, Hosts := ["ord4.example.com"] },
              AdminIstio := some { Port := 9443, Hosts := [] },
              AdminTraefik := some { Hosts := ["admin-proxy.example.com"] } }
    Status := { NodePort := 30050, AdminPort := 30053 } }

/-- A second peer of the organization of `peer0`. -/
def peer1 : FabricPeer :=
  { ObjectMeta := { Name := "peer1", Namespace := "org1" }
    Spec := { MspID := "Org1MSP", Traefik := some { Hosts := ["peer1.example.com"] } }
    Status := { NodePort := 30052 } }

/-- A peer of another organization, reached through the fallback. -/
def peer2 : FabricPeer :=
  { ObjectMeta := { Name := "peer0", Namespace := "org2" }
    Spec := { MspID := "Org2MSP" }
    Status := { NodePort := 30061 } }

/-- A store holding the peers `peer0`, `peer2`, `peer1`, in that order, in every scope, and
nothing else. -/
def peerStore : OperatorClientset :=
  { FabricCAs := fun _ => .ok []
    FabricPeers := fun _ => .ok [peer0, peer2, peer1]
    FabricOrdererNodes := fun _ _ => .ok []
    FabricOrderingServices := fun _ => .ok [] }

/-- The order that visits the entries of a map last to first. -/
def lastFirst : RangeOrder :=
  { visit := List.reverse
    perm := fun m => List.reverse_perm m }

/-- The order that visits the entries of a map first to last. -/
def firstLast : RangeOrder :=
  { visit := fun m => m
    perm := fun m => List.Perm.refl m }

/-- What `MapClusterPeer` makes of `peer0`. -/
def clusterPeer0 : ClusterPeer :=
  { Name := "peer0.org1", ObjectMeta := peer0.ObjectMeta, Namespace := "org1",
    Object := peer0, Spec := peer0.Spec, Status := peer0.Status,
    PublicURL := "peer0.example.com:443", PrivateURL := "peer0.org1:7051",
    MSPID := "Org1MSP" }

/-- What `MapClusterPeer` makes of `peer1`. -/
def clusterPeer1 : ClusterPeer :=
  { Name := "peer1.org1", ObjectMeta := peer1.ObjectMeta, Namespace := "org1",
    Object := peer1, Spec := peer1.Spec, Status := peer1.Status,
    PublicURL := "peer1.example.com:443", PrivateURL := "peer1.org1:7051",
    MSPID := "Org1MSP" }

/-- What `MapClusterPeer` makes of `peer2` when discovery answers `192.0.2.7`. -/
def clusterPeer2 : ClusterPeer :=
  { Name := "peer0.org2", ObjectMeta := peer2.ObjectMeta, Namespace := "org2",
    Object := peer2, Spec := peer2.Spec, Status := peer2.Status,
    PublicURL := "192.0.2.7:30061", PrivateURL := "peer0.org2:7051",
    MSPID := "Org2MSP" }

/-- The organizations of the peers of `peerStore`, as `lastFirst` returns them. -/
def peerOrganizations : List Organization :=
  [{ Type_ := PeerType, MspID := "Org2MSP", Peers := [clusterPeer2] },
   { Type_ := PeerType, MspID := "Org1MSP", Peers := [clusterPeer0, clusterPeer1] }]

/-- A cluster whose public-IP discovery fails. -/
def noIP : Clientset := { PublicIP := .error "no public IP" }

/-- A cluster whose public-IP discovery answers `192.0.2.7`. -/
def withIP : Clientset := { PublicIP := .ok "192.0.2.7" }

/-- A store listing the peers of `peerStore` in another order: `peer1`, `peer0`, `peer2`. -/
def peerStoreShuffled : OperatorClientset :=
  { FabricCAs := fun _ => .ok []
    FabricPeers := fun _ => .ok [peer1, peer0, peer2]
    FabricOrdererNodes := fun _ _ => .ok []
    FabricOrderingServices := fun _ => .ok [] }

/-- The organizations of the peers of `peerStoreShuffled`, as `firstLast` returns them. -/
def peerOrganizationsShuffled : List Organization :=
  [{ Type_ := PeerType, MspID := "Org1MSP", Peers := [clusterPeer1, clusterPeer0] },
   { Type_ := PeerType, MspID := "Org2MSP", Peers := [clusterPeer2] }]

/-- A certificate authority named `a` in a namespace written `b.c`. -/
def caDotted : FabricCA :=
  { ObjectMeta := { Name := "a", Namespace := "b.c" }
    Spec := { Istio := some { Port := 443, Hosts := ["a.example.com"] } } }

/-- A certificate authority named `a.b` in the namespace `c`. -/
def caDottedName : FabricCA :=
  { ObjectMeta := { Name := "a.b", Namespace := "c" }
    Spec := { Istio := some { Port := 443, Hosts := ["ab.example.com"] } } }

/-- An orderer node labelled as a member of the ordering service `ordservice`. -/
def ordOwned : FabricOrdererNode :=
  { ObjectMeta :=
      { Name := "ord5", Namespace := "ordns", Labels := [("release", "ordservice")] }
    Spec := { MspID := "OrdererMSP", Traefik := some { Hosts := ["ord5.example.com"] } }
    Status := { NodePort := 30055, AdminPort := 30056 } }

/-- The explicit ordering service `ordservice`. -/
def ordService : FabricOrderingService :=
  { ObjectMeta := { Name := "ordservice", Namespace := "ordns" }
    Spec := { MspID := "OrdererMSP" } }

/-- A store with two certificate authorities, the three peers, an unowned and an owned
orderer node, and the ordering service of the latter. -/
def fullStore : OperatorClientset :=
  storeOf [ca0, caBare] [peer0, peer2, peer1] [ord0, ordOwned] [ordService]

/-- What the first loop of `GetClusterOrderers` makes of `ord0` when discovery answers
`192.0.2.7`. -/
def clusterOrd0 : ClusterOrdererNode :=
  { AdminURL := "https://192.0.2.7:30053", Name := "ord0.ordns",
    ObjectMeta := ord0.ObjectMeta, Spec := ord0.Spec, Status := ord0.Status,
    PublicURL := "ord0.example.com:443", PrivateURL := "ord0.ordns:7050" }

/-- What the first loop of `GetClusterOrderers` makes of `ordOwned` when discovery answers
`192.0.2.7`. -/
def clusterOrdOwned : ClusterOrdererNode :=
  { AdminURL := "https://192.0.2.7:30056", Name := "ord5.ordns",
    ObjectMeta := ordOwned.ObjectMeta, Spec := ordOwned.Spec, Status := ordOwned.Status,
    PublicURL := "ord5.example.com:443", PrivateURL := "ord5.ordns:7050" }

/-- The ordering services of `fullStore`: the implicit one, then `ordservice`. -/
def fullOrderers : List ClusterOrderingService :=
  [{ Name := "ord0.ordns", MSPID := "OrdererMSP", Orderers := [clusterOrd0, clusterOrdOwned] },
   { Name := "ordservice.ordns", Object := ordService, MSPID := "OrdererMSP",
     Spec := ordService.Spec, Status := ordService.Status,
     Orderers := [{ Name := "ord5.ordns", Spec := ordOwned.Spec, Status := ordOwned.Status }] }]

/-- The organizations `GetClusterOrderers` returns for `fullStore`. -/
def fullOrganizations : List Organization :=
  [{ Type_ := OrdererType, MspID := "OrdererMSP" },
   { Type_ := OrdererType, MspID := "OrdererMSP" }]

/-- What `MapClusterCA` makes of `ca0`. -/
def clusterCA0 : ClusterCA :=
  { Object := ca0, Spec := ca0.Spec, Status := ca0.Status, Name := "ca0.org1",
    Namespace := "org1", PublicURL := "ca0.example.com:443", PrivateURL := "ca0.org1:7054",
    Item := ca0 }

/-- What `MapClusterCA` makes of `caBare` when discovery answers `192.0.2.7`. -/
def clusterCABare : ClusterCA :=
  { Object := caBare, Spec := caBare.Spec, Status := caBare.Status, Name := "ca1.org1",
    Namespace := "org1", PublicURL := "192.0.2.7:30054", PrivateURL := "ca1.org1:7054",
    Item := caBare }

/-- A certificate authority with one registered identity after another, exposed through the
mesh. -/
def caRegistered : FabricCA :=
  { ObjectMeta := { Name := "ca4", Namespace := "org1" }
    Spec := { Istio := some { Port := 443, Hosts := ["ca4.example.com"] },
              CA := { Registry := { Identities :=
                [{ Name := "enroll", Pass := "enrollpw" }, { Name := "admin", Pass := "adminpw" }] } } }
    Status := { NodePort := 7054 } }

/-! ## Shared lemmas on the resolvers -/

theorem meshHosts_eq_nil_cases {m : Option FabricIstio} (h : meshHosts m = []) :
    m = none ∨ ∃ port, m = some { Port := port, Hosts := [] } := by
  cases m with
  | none => exact Or.inl rfl
  | some i =>
    obtain ⟨port, hosts⟩ := i
    simp only [meshHosts] at h
    subst h
    exact Or.inr ⟨port, rfl⟩

theorem gatewayHosts_eq_nil_cases {m : Option FabricGatewayApi} (h : gatewayHosts m = []) :
    m = none ∨ ∃ port, m = some { Port := port, Hosts := [] } := by
  cases m with
  | none => exact Or.inl rfl
  | some g =>
    obtain ⟨port, hosts⟩ := g
    simp only [gatewayHosts] at h
    subst h
    exact Or.inr ⟨port, rfl⟩

theorem proxyHosts_eq_nil_cases {m : Option FabricTraefik} (h : proxyHosts m = []) :
    m = none ∨ m = some { Hosts := [] } := by
  cases m with
  | none => exact Or.inl rfl
  | some t =>
    obtain ⟨hosts⟩ := t
    simp only [proxyHosts] at h
    subst h
    exact Or.inr rfl

theorem mesh_present_cases {istio : FabricIstio} (h : 0 < istio.Hosts.length) :
    ∃ tl, istio = { Port := istio.Port, Hosts := istio.Hosts[0] :: tl } := by
  obtain ⟨port, hosts⟩ := istio
  cases hosts with
  | nil => simp at h
  | cons hd tl => exact ⟨tl, rfl⟩

theorem gateway_present_cases {gw : FabricGatewayApi} (h : 0 < gw.Hosts.length) :
    ∃ tl, gw = { Port := gw.Port, Hosts := gw.Hosts[0] :: tl } := by
  obtain ⟨port, hosts⟩ := gw
  cases hosts with
  | nil => simp at h
  | cons hd tl => exact ⟨tl, rfl⟩

theorem proxy_present_cases {px : FabricTraefik} (h : 0 < px.Hosts.length) :
    ∃ tl, px = { Hosts := px.Hosts[0] :: tl } := by
  obtain ⟨hosts⟩ := px
  cases hosts with
  | nil => simp at h
  | cons hd tl => exact ⟨tl, rfl⟩

theorem GetCAHostPort_mesh (clientset : Clientset) (node : FabricCA) (istio : FabricIstio)
    (h : 0 < istio.Hosts.length) (hm : node.Spec.Istio = some istio) :
    GetCAHostPort clientset node = .ok { Host := istio.Hosts[0], Port := istio.Port } := by
  obtain ⟨tl, htl⟩ := mesh_present_cases h
  rw [htl] at hm
  simp only [GetCAHostPort, hm]

theorem GetPeerHostPort_mesh (clientset : Clientset) (node : FabricPeer) (istio : FabricIstio)
    (h : 0 < istio.Hosts.length) (hm : node.Spec.Istio = some istio) :
    GetPeerHostPort clientset node = .ok { Host := istio.Hosts[0], Port := istio.Port } := by
  obtain ⟨tl, htl⟩ := mesh_present_cases h
  rw [htl] at hm
  simp only [GetPeerHostPort, hm]

theorem GetOrdererHostPort_mesh (clientset : Clientset) (node : FabricOrdererNode)
    (istio : FabricIstio) (h : 0 < istio.Hosts.length) (hm : node.Spec.Istio = some istio) :
    GetOrdererHostPort clientset node = .ok { Host := istio.Hosts[0], Port := istio.Port } := by
  obtain ⟨tl, htl⟩ := mesh_present_cases h
  rw [htl] at hm
  simp only [GetOrdererHostPort, hm]

/-! ## Mesh ingress wins (C1) -/

/-- C1: for every CA, peer and orderer-node record whose mesh ingress is present with a
non-empty host list, `GetCAHostPort`, `GetPeerHostPort` and `GetOrdererHostPort` succeed with
exactly `(Istio.Hosts[0], Istio.Port)`, for every status, every content of the other
mechanisms and every outcome of public-IP discovery; and every peer with mesh hosts
`["peer0.example.com"]` and mesh port 443 has the public URL `peer0.example.com:443`. -/
theorem mesh_ingress_wins :
    (∀ (clientset : Clientset) (node : FabricCA) (istio : FabricIstio)
        (h : 0 < istio.Hosts.length), node.Spec.Istio = some istio →
        GetCAHostPort clientset node = .ok { Host := istio.Hosts[0], Port := istio.Port }) ∧
    (∀ (clientset : Clientset) (node : FabricPeer) (istio : FabricIstio)
        (h : 0 < istio.Hosts.length), node.Spec.Istio = some istio →
        GetPeerHostPort clientset node = .ok { Host := istio.Hosts[0], Port := istio.Port }) ∧
    (∀ (clientset : Clientset) (node : FabricOrdererNode) (istio : FabricIstio)
        (h : 0 < istio.Hosts.length), node.Spec.Istio = some istio →
        GetOrdererHostPort clientset node =
          .ok { Host := istio.Hosts[0], Port := istio.Port }) ∧
    (∀ (clientset : Clientset) (node : FabricPeer),
        node.Spec.Istio = some { Port := 443, Hosts := ["peer0.example.com"] } →
        GetPeerPublicURL clientset node = .ok "peer0.example.com:443") := by
  refine ⟨GetCAHostPort_mesh, GetPeerHostPort_mesh, GetOrdererHostPort_mesh, ?_⟩
  intro clientset node hm
  simp only [GetPeerPublicURL, GetPeerHostPort, hm]
  decide

/-- C1 at the scenario's records, with a failing discovery. -/
theorem mesh_ingress_wins_witness :
    GetCAHostPort noIP ca0 = .ok { Host := "ca0.example.com", Port := 443 } ∧
    GetPeerHostPort noIP peer0 = .ok { Host := "peer0.example.com", Port := 443 } ∧
    GetOrdererHostPort withIP ord0 = .ok { Host := "ord0.example.com", Port := 443 } ∧
    GetPeerPublicURL noIP peer0 = .ok "peer0.example.com:443" :=
  ⟨mesh_ingress_wins.1 noIP ca0 { Port := 443, Hosts := ["ca0.example.com", "ca0.alt"] }
      (by decide) rfl,
   mesh_ingress_wins.2.1 noIP peer0 { Port := 443, Hosts := ["peer0.example.com"] }
      (by decide) rfl,
   mesh_ingress_wins.2.2.1 withIP ord0 { Port := 443, Hosts := ["ord0.example.com"] }
      (by decide) rfl,
   mesh_ingress_wins.2.2.2 noIP peer0 rfl⟩

/-! ## Fallback to discovery (C2) -/

theorem GetCAHostPort_fallback (clientset : Clientset) (node : FabricCA)
    (hm : meshHosts node.Spec.Istio = []) (hg : gatewayHosts node.Spec.GatewayApi = [])
    (hp : proxyHosts node.Spec.Traefik = []) :
    GetCAHostPort clientset node = fallbackHostPort clientset node.Status.NodePort := by
  rcases meshHosts_eq_nil_cases hm with hm | ⟨_, hm⟩ <;>
  rcases gatewayHosts_eq_nil_cases hg with hg | ⟨_, hg⟩ <;>
  rcases proxyHosts_eq_nil_cases hp with hp | hp <;>
  · simp only [GetCAHostPort, fallbackHostPort, hm, hg, hp]
    cases GetPublicIPKubernetes clientset <;> rfl

theorem GetPeerHostPort_fallback (clientset : Clientset) (node : FabricPeer)
    (hm : meshHosts node.Spec.Istio = []) (hg : gatewayHosts node.Spec.GatewayApi = [])
    (hp : proxyHosts node.Spec.Traefik = []) :
    GetPeerHostPort clientset node = fallbackHostPort clientset node.Status.NodePort := by
  rcases meshHosts_eq_nil_cases hm with hm | ⟨_, hm⟩ <;>
  rcases gatewayHosts_eq_nil_cases hg with hg | ⟨_, hg⟩ <;>
  rcases proxyHosts_eq_nil_cases hp with hp | hp <;>
  · simp only [GetPeerHostPort, fallbackHostPort, hm, hg, hp]
    cases GetPublicIPKubernetes clientset <;> rfl

theorem GetOrdererHostPort_fallback (clientset : Clientset) (node : FabricOrdererNode)
    (hm : meshHosts node.Spec.Istio = []) (hg : gatewayHosts node.Spec.GatewayApi = [])
    (hp : proxyHosts node.Spec.Traefik = []) :
    GetOrdererHostPort clientset node = fallbackHostPort clientset node.Status.NodePort := by
  rcases meshHosts_eq_nil_cases hm with hm | ⟨_, hm⟩ <;>
  rcases gatewayHosts_eq_nil_cases hg with hg | ⟨_, hg⟩ <;>
  rcases proxyHosts_eq_nil_cases hp with hp | hp <;>
  · simp only [GetOrdererHostPort, fallbackHostPort, hm, hg, hp]
    cases GetPublicIPKubernetes clientset <;> rfl

theorem GetOrdererHostAndPort_fallback (clientset : Clientset)
    (nodeSpec : FabricOrdererNodeSpec) (nodeStatus : FabricOrdererNodeStatus)
    (hm : meshHosts nodeSpec.Istio = []) (hp : proxyHosts nodeSpec.Traefik = []) :
    GetOrdererHostAndPort clientset nodeSpec nodeStatus =
      fallbackPair clientset nodeStatus.NodePort := by
  rcases meshHosts_eq_nil_cases hm with hm | ⟨_, hm⟩ <;>
  rcases proxyHosts_eq_nil_cases hp with hp | hp <;>
  · simp only [GetOrdererHostAndPort, fallbackPair, hm, hp]
    cases GetPublicIPKubernetes clientset <;> rfl

theorem GetCAHostPort_dropEmpty (clientset : Clientset) (node : FabricCA) :
    GetCAHostPort clientset
        { node with Spec := { node.Spec with
            Istio := dropEmptyMesh node.Spec.Istio
            GatewayApi := dropEmptyGateway node.Spec.GatewayApi
            Traefik := dropEmptyProxy node.Spec.Traefik } } =
      GetCAHostPort clientset node := by
  obtain ⟨meta, ⟨hosts, mesh, gw, px, conf⟩, status⟩ := node
  rcases mesh with _ | ⟨_, _ | _⟩ <;> rcases gw with _ | ⟨_, _ | _⟩ <;>
    rcases px with _ | ⟨_ | _⟩ <;>
    simp [GetCAHostPort, dropEmptyMesh, dropEmptyGateway, dropEmptyProxy, meshHosts,
      gatewayHosts, proxyHosts]

theorem GetPeerHostPort_dropEmpty (clientset : Clientset) (node : FabricPeer) :
    GetPeerHostPort clientset
        { node with Spec := { node.Spec with
            Istio := dropEmptyMesh node.Spec.Istio
            GatewayApi := dropEmptyGateway node.Spec.GatewayApi
            Traefik := dropEmptyProxy node.Spec.Traefik } } =
      GetPeerHostPort clientset node := by
  obtain ⟨meta, ⟨msp, mesh, px, gw⟩, status⟩ := node
  rcases mesh with _ | ⟨_, _ | _⟩ <;> rcases gw with _ | ⟨_, _ | _⟩ <;>
    rcases px with _ | ⟨_ | _⟩ <;>
    simp [GetPeerHostPort, dropEmptyMesh, dropEmptyGateway, dropEmptyProxy, meshHosts,
      gatewayHosts, proxyHosts]

theorem GetOrdererHostPort_dropEmpty (clientset : Clientset) (node : FabricOrdererNode) :
    GetOrdererHostPort clientset
        { node with Spec := { node.Spec with
            Istio := dropEmptyMesh node.Spec.Istio
            GatewayApi := dropEmptyGateway node.Spec.GatewayApi
            Traefik := dropEmptyProxy node.Spec.Traefik } } =
      GetOrdererHostPort clientset node := by
  obtain ⟨meta, ⟨msp, mesh, px, gw, amesh, apx⟩, status⟩ := node
  rcases mesh with _ | ⟨_, _ | _⟩ <;> rcases gw with _ | ⟨_, _ | _⟩ <;>
    rcases px with _ | ⟨_ | _⟩ <;>
    simp [GetOrdererHostPort, dropEmptyMesh, dropEmptyGateway, dropEmptyProxy, meshHosts,
      gatewayHosts, proxyHosts]

theorem GetOrdererHostAndPort_dropEmpty (clientset : Clientset)
    (nodeSpec : FabricOrdererNodeSpec) (nodeStatus : FabricOrdererNodeStatus) :
    GetOrdererHostAndPort clientset
        { nodeSpec with
            Istio := dropEmptyMesh nodeSpec.Istio
            GatewayApi := dropEmptyGateway nodeSpec.GatewayApi
            Traefik := dropEmptyProxy nodeSpec.Traefik } nodeStatus =
      GetOrdererHostAndPort clientset nodeSpec nodeStatus := by
  obtain ⟨msp, mesh, px, gw, amesh, apx⟩ := nodeSpec
  rcases mesh with _ | ⟨_, _ | _⟩ <;> rcases px with _ | ⟨_ | _⟩ <;>
    simp [GetOrdererHostAndPort, dropEmptyMesh, dropEmptyProxy, meshHosts, proxyHosts]

/-- C2: for every CA, peer and orderer-node record in which every exposure mechanism is
absent or has an empty host list, `GetCAHostPort`, `GetPeerHostPort`, `GetOrdererHostPort`
and `GetOrdererHostAndPort` return what public-IP discovery returns paired with
`Status.NodePort` (the address when discovery answers, its error when it fails); and for
every record at all, replacing each mechanism that is present with an empty host list by an
absent one leaves the result of each resolver unchanged. -/
theorem fallback_when_no_mechanism :
    (∀ (clientset : Clientset) (node : FabricCA),
        meshHosts node.Spec.Istio = [] → gatewayHosts node.Spec.GatewayApi = [] →
        proxyHosts node.Spec.Traefik = [] →
        GetCAHostPort clientset node = fallbackHostPort clientset node.Status.NodePort) ∧
    (∀ (clientset : Clientset) (node : FabricPeer),
        meshHosts node.Spec.Istio = [] → gatewayHosts node.Spec.GatewayApi = [] →
        proxyHosts node.Spec.Traefik = [] →
        GetPeerHostPort clientset node = fallbackHostPort clientset node.Status.NodePort) ∧
    (∀ (clientset : Clientset) (node : FabricOrdererNode),
        meshHosts node.Spec.Istio = [] → gatewayHosts node.Spec.GatewayApi = [] →
        proxyHosts node.Spec.Traefik = [] →
        GetOrdererHostPort clientset node =
          fallbackHostPort clientset node.Status.NodePort ∧
        GetOrdererHostAndPort clientset node.Spec node.Status =
          fallbackPair clientset node.Status.NodePort) ∧
    (∀ (clientset : Clientset) (node : FabricCA),
        GetCAHostPort clientset
            { node with Spec := { node.Spec with
                Istio := dropEmptyMesh node.Spec.Istio
                GatewayApi := dropEmptyGateway node.Spec.GatewayApi
                Traefik := dropEmptyProxy node.Spec.Traefik } } =
          GetCAHostPort clientset node) ∧
    (∀ (clientset : Clientset) (node : FabricPeer),
        GetPeerHostPort clientset
            { node with Spec := { node.Spec with
                Istio := dropEmptyMesh node.Spec.Istio
                GatewayApi := dropEmptyGateway node.Spec.GatewayApi
                Traefik := dropEmptyProxy node.Spec.Traefik } } =
          GetPeerHostPort clientset node) ∧
    (∀ (clientset : Clientset) (node : FabricOrdererNode),
        GetOrdererHostPort clientset
            { node with Spec := { node.Spec with
                Istio := dropEmptyMesh node.Spec.Istio
                GatewayApi := dropEmptyGateway node.Spec.GatewayApi
                Traefik := dropEmptyProxy node.Spec.Traefik } } =
          GetOrdererHostPort clientset node ∧
        GetOrdererHostAndPort clientset
            { node.Spec with
                Istio := dropEmptyMesh node.Spec.Istio
                GatewayApi := dropEmptyGateway node.Spec.GatewayApi
                Traefik := dropEmptyProxy node.Spec.Traefik } node.Status =
          GetOrdererHostAndPort clientset node.Spec node.Status) :=
  ⟨GetCAHostPort_fallback, GetPeerHostPort_fallback,
   fun clientset node hm hg hp =>
     ⟨GetOrdererHostPort_fallback clientset node hm hg hp,
      GetOrdererHostAndPort_fallback clientset node.Spec node.Status hm hp⟩,
   GetCAHostPort_dropEmpty, GetPeerHostPort_dropEmpty,
   fun clientset node =>
     ⟨GetOrdererHostPort_dropEmpty clientset node,
      GetOrdererHostAndPort_dropEmpty clientset node.Spec node.Status⟩⟩

/-- C2 at records whose mechanisms are absent or present with no host, with a discovery
that answers and one that fails. -/
theorem fallback_when_no_mechanism_witness :
    GetCAHostPort withIP caBare = .ok { Host := "192.0.2.7", Port := 30054 } ∧
    GetPeerHostPort noIP peerBare = .error "no public IP" ∧
    GetOrdererHostPort withIP ordBare = .ok { Host := "192.0.2.7", Port := 30050 } ∧
    GetOrdererHostAndPort withIP ordBare.Spec ordBare.Status = .ok ("192.0.2.7", 30050) :=
  ⟨fallback_when_no_mechanism.1 withIP caBare (by decide) (by decide) (by decide),
   fallback_when_no_mechanism.2.1 noIP peerBare (by decide) (by decide) (by decide),
   (fallback_when_no_mechanism.2.2.1 withIP ordBare (by decide) (by decide) (by decide)).1,
   (fallback_when_no_mechanism.2.2.1 withIP ordBare (by decide) (by decide) (by decide)).2⟩

/-! ## Discovery is consulted last, except by `GetPeerHostAndPort` (C3) -/

/-- The resolvers that guard every read fail exactly when every mechanism they consult is
absent or has no host and discovery fails. -/
theorem guarded_resolvers_fail_iff (clientset : Clientset) :
    (∀ (node : FabricCA) (err : String), GetCAHostPort clientset node = .error err ↔
        meshHosts node.Spec.Istio = [] ∧ gatewayHosts node.Spec.GatewayApi = [] ∧
        proxyHosts node.Spec.Traefik = [] ∧ GetPublicIPKubernetes clientset = .error err) ∧
    (∀ (node : FabricPeer) (err : String), GetPeerHostPort clientset node = .error err ↔
        meshHosts node.Spec.Istio = [] ∧ gatewayHosts node.Spec.GatewayApi = [] ∧
        proxyHosts node.Spec.Traefik = [] ∧ GetPublicIPKubernetes clientset = .error err) ∧
    (∀ (node : FabricOrdererNode) (err : String),
        GetOrdererHostPort clientset node = .error err ↔
        meshHosts node.Spec.Istio = [] ∧ gatewayHosts node.Spec.GatewayApi = [] ∧
        proxyHosts node.Spec.Traefik = [] ∧ GetPublicIPKubernetes clientset = .error err) ∧
    (∀ (nodeSpec : FabricOrdererNodeSpec) (nodeStatus : FabricOrdererNodeStatus)
        (err : String), GetOrdererHostAndPort clientset nodeSpec nodeStatus = .error err ↔
        meshHosts nodeSpec.Istio = [] ∧ proxyHosts nodeSpec.Traefik = [] ∧
        GetPublicIPKubernetes clientset = .error err) ∧
    (∀ (nodeSpec : FabricOrdererNodeSpec) (nodeStatus : FabricOrdererNodeStatus)
        (err : String), GetOrdererAdminHostAndPort clientset nodeSpec nodeStatus = .error err ↔
        meshHosts nodeSpec.AdminIstio = [] ∧ proxyHosts nodeSpec.AdminTraefik = [] ∧
        GetPublicIPKubernetes clientset = .error err) := by
  refine ⟨?_, ?_, ?_, ?_, ?_⟩
  · rintro ⟨meta, ⟨hosts, mesh, gw, px, conf⟩, status⟩ err
    rcases mesh with _ | ⟨_, _ | _⟩ <;> rcases gw with _ | ⟨_, _ | _⟩ <;>
      rcases px with _ | ⟨_ | _⟩ <;>
      cases hd : GetPublicIPKubernetes clientset <;>
      simp [GetCAHostPort, meshHosts, gatewayHosts, proxyHosts, hd]
  · rintro ⟨meta, ⟨msp, mesh, px, gw⟩, status⟩ err
    rcases mesh with _ | ⟨_, _ | _⟩ <;> rcases gw with _ | ⟨_, _ | _⟩ <;>
      rcases px with _ | ⟨_ | _⟩ <;>
      cases hd : GetPublicIPKubernetes clientset <;>
      simp [GetPeerHostPort, meshHosts, gatewayHosts, proxyHosts, hd]
  · rintro ⟨meta, ⟨msp, mesh, px, gw, amesh, apx⟩, status⟩ err
    rcases mesh with _ | ⟨_, _ | _⟩ <;> rcases gw with _ | ⟨_, _ | _⟩ <;>
      rcases px with _ | ⟨_ | _⟩ <;>
      cases hd : GetPublicIPKubernetes clientset <;>
      simp [GetOrdererHostPort, meshHosts, gatewayHosts, proxyHosts, hd]
  · rintro ⟨msp, mesh, px, gw, amesh, apx⟩ status err
    rcases mesh with _ | ⟨_, _ | _⟩ <;> rcases px with _ | ⟨_ | _⟩ <;>
      cases hd : GetPublicIPKubernetes clientset <;>
      simp [GetOrdererHostAndPort, meshHosts, proxyHosts, hd]
  · rintro ⟨msp, mesh, px, gw, amesh, apx⟩ status err
    rcases amesh with _ | ⟨_, _ | _⟩ <;> rcases apx with _ | ⟨_ | _⟩ <;>
      cases hd : GetPublicIPKubernetes clientset <;>
      simp [GetOrdererAdminHostAndPort, meshHosts, proxyHosts, hd]

/-- C3: `GetPeerHostAndPort` consults discovery before it looks at the mesh ingress. At the
peer of the scenario (mesh hosts `["peer0.example.com"]`, port 443) with a failing
discovery it returns discovery's error, where `GetPeerHostPort` returns the mesh host and
port for the same record; and whenever discovery fails it returns that error, whatever the
peer's spec and status. -/
theorem GetPeerHostAndPort_discovers_first :
    GetPeerHostAndPort noIP peer0.Spec peer0.Status = some (.error "no public IP") ∧
    GetPeerHostPort noIP peer0 = .ok { Host := "peer0.example.com", Port := 443 } ∧
    (∀ (err : String) (nodeSpec : FabricPeerSpec) (nodeStatus : FabricPeerStatus),
        GetPeerHostAndPort { PublicIP := .error err } nodeSpec nodeStatus =
          some (.error err)) :=
  ⟨rfl, rfl, fun _ _ _ => rfl⟩

/-! ## Precedence for a certificate authority (C4) -/

theorem GetCAHostPort_gateway (clientset : Clientset) (node : FabricCA)
    (gw : FabricGatewayApi) (h : 0 < gw.Hosts.length)
    (hm : meshHosts node.Spec.Istio = []) (hg : node.Spec.GatewayApi = some gw) :
    GetCAHostPort clientset node = .ok { Host := gw.Hosts[0], Port := gw.Port } := by
  obtain ⟨tl, htl⟩ := gateway_present_cases h
  rw [htl] at hg
  rcases meshHosts_eq_nil_cases hm with hm | ⟨_, hm⟩ <;>
    simp only [GetCAHostPort, hm, hg]

theorem GetCAHostPort_proxy (clientset : Clientset) (node : FabricCA)
    (px : FabricTraefik) (h : 0 < px.Hosts.length)
    (hm : meshHosts node.Spec.Istio = []) (hg : gatewayHosts node.Spec.GatewayApi = [])
    (hp : node.Spec.Traefik = some px) :
    GetCAHostPort clientset node = .ok { Host := px.Hosts[0], Port := 443 } := by
  obtain ⟨tl, htl⟩ := proxy_present_cases h
  rw [htl] at hp
  rcases meshHosts_eq_nil_cases hm with hm | ⟨_, hm⟩ <;>
    rcases gatewayHosts_eq_nil_cases hg with hg | ⟨_, hg⟩ <;>
    simp only [GetCAHostPort, hm, hg, hp]

theorem GetURLForCA_eq (clientset : Clientset) (certAuth : ClusterCA) (node : FabricCA)
    (hs : certAuth.Spec = node.Spec) (hst : certAuth.Status = node.Status) :
    GetURLForCA (.ok clientset) certAuth =
      (GetCAHostPort clientset node).map httpsURL := by
  obtain ⟨meta, ⟨hosts, mesh, gw, px, conf⟩, status⟩ := node
  rcases mesh with _ | ⟨_, _ | _⟩ <;> rcases gw with _ | ⟨_, _ | _⟩ <;>
    rcases px with _ | ⟨_ | _⟩ <;>
    cases hd : GetPublicIPKubernetes clientset <;>
    simp [GetURLForCA, GetCAHostPort, hs, hst, hd, Except.map, httpsURL]

theorem GetURLForCA_configured (kubeClient : Except String Clientset) (clientset : Clientset)
    (certAuth : ClusterCA) (node : FabricCA) (hs : certAuth.Spec = node.Spec)
    (hc : meshHosts node.Spec.Istio ≠ [] ∨ gatewayHosts node.Spec.GatewayApi ≠ [] ∨
      proxyHosts node.Spec.Traefik ≠ []) :
    GetURLForCA kubeClient certAuth = (GetCAHostPort clientset node).map httpsURL := by
  obtain ⟨meta, ⟨hosts, mesh, gw, px, conf⟩, status⟩ := node
  rcases mesh with _ | ⟨_, _ | _⟩ <;> rcases gw with _ | ⟨_, _ | _⟩ <;>
    rcases px with _ | ⟨_ | _⟩ <;>
    simp [meshHosts, gatewayHosts, proxyHosts] at hc <;>
    simp [GetURLForCA, GetCAHostPort, hs, Except.map, httpsURL]

/-- C4: for every certificate-authority record `GetCAHostPort` applies the precedence mesh,
gateway, reverse proxy, fallback. With the mesh hosts non-empty it returns the mesh host and
port; with the mesh absent or empty and the gateway hosts non-empty it returns
`(GatewayApi.Hosts[0], GatewayApi.Port)`, whatever the reverse proxy holds; with mesh and
gateway absent or empty and the reverse-proxy hosts non-empty it returns
`(Traefik.Hosts[0], 443)`; with all three absent or empty it returns the fallback. And
`GetURLForCA` builds its URL from the same host and port: for a `ClusterCA` carrying the
record's spec and status it returns `https://host:port` of the address `GetCAHostPort`
resolves, and the same error when that fails; when some mechanism has a host it does so
whatever `GetKubeClient` answers. -/
theorem ca_precedence :
    (∀ (clientset : Clientset) (node : FabricCA) (istio : FabricIstio)
        (h : 0 < istio.Hosts.length), node.Spec.Istio = some istio →
        GetCAHostPort clientset node = .ok { Host := istio.Hosts[0], Port := istio.Port }) ∧
    (∀ (clientset : Clientset) (node : FabricCA) (gw : FabricGatewayApi)
        (h : 0 < gw.Hosts.length), meshHosts node.Spec.Istio = [] →
        node.Spec.GatewayApi = some gw →
        GetCAHostPort clientset node = .ok { Host := gw.Hosts[0], Port := gw.Port }) ∧
    (∀ (clientset : Clientset) (node : FabricCA) (px : FabricTraefik)
        (h : 0 < px.Hosts.length), meshHosts node.Spec.Istio = [] →
        gatewayHosts node.Spec.GatewayApi = [] → node.Spec.Traefik = some px →
        GetCAHostPort clientset node = .ok { Host := px.Hosts[0], Port := 443 }) ∧
    (∀ (clientset : Clientset) (node : FabricCA),
        meshHosts node.Spec.Istio = [] → gatewayHosts node.Spec.GatewayApi = [] →
        proxyHosts node.Spec.Traefik = [] →
        GetCAHostPort clientset node = fallbackHostPort clientset node.Status.NodePort) ∧
    (∀ (clientset : Clientset) (certAuth : ClusterCA) (node : FabricCA),
        certAuth.Spec = node.Spec → certAuth.Status = node.Status →
        GetURLForCA (.ok clientset) certAuth =
          (GetCAHostPort clientset node).map httpsURL) ∧
    (∀ (kubeClient : Except String Clientset) (clientset : Clientset) (certAuth : ClusterCA)
        (node : FabricCA), certAuth.Spec = node.Spec →
        (meshHosts node.Spec.Istio ≠ [] ∨ gatewayHosts node.Spec.GatewayApi ≠ [] ∨
          proxyHosts node.Spec.Traefik ≠ []) →
        GetURLForCA kubeClient certAuth = (GetCAHostPort clientset node).map httpsURL) :=
  ⟨GetCAHostPort_mesh, GetCAHostPort_gateway, GetCAHostPort_proxy, GetCAHostPort_fallback,
   GetURLForCA_eq, GetURLForCA_configured⟩

/-- C4 at a certificate authority with gateway and reverse proxy both configured, and at one
with the reverse proxy only. -/
theorem ca_precedence_witness :
    GetCAHostPort noIP caBoth = .ok { Host := "gw.example.com", Port := 8443 } ∧
    GetCAHostPort noIP caProxy = .ok { Host := "proxy.example.com", Port := 443 } ∧
    GetURLForCA (.ok noIP) { Spec := caBoth.Spec, Status := caBoth.Status } =
      .ok "https://gw.example.com:8443" ∧
    GetURLForCA (.error "no kube config") { Spec := caProxy.Spec, Status := caProxy.Status } =
      .ok "https://proxy.example.com:443" :=
  ⟨ca_precedence.2.1 noIP caBoth { Port := 8443, Hosts := ["gw.example.com"] }
      (by decide) (by decide) rfl,
   ca_precedence.2.2.1 noIP caProxy { Hosts := ["proxy.example.com"] }
      (by decide) (by decide) (by decide) rfl,
   ca_precedence.2.2.2.2.1 noIP { Spec := caBoth.Spec, Status := caBoth.Status } caBoth
      rfl rfl,
   ca_precedence.2.2.2.2.2 (.error "no kube config") noIP
      { Spec := caProxy.Spec, Status := caProxy.Status } caProxy rfl (by decide)⟩

/-! ## Precedence for a peer (C5) -/

theorem GetPeerHostPort_proxy (clientset : Clientset) (node : FabricPeer)
    (px : FabricTraefik) (h : 0 < px.Hosts.length)
    (hm : meshHosts node.Spec.Istio = []) (hp : node.Spec.Traefik = some px) :
    GetPeerHostPort clientset node = .ok { Host := px.Hosts[0], Port := 443 } := by
  obtain ⟨tl, htl⟩ := proxy_present_cases h
  rw [htl] at hp
  rcases meshHosts_eq_nil_cases hm with hm | ⟨_, hm⟩ <;>
    simp only [GetPeerHostPort, hm, hp]

theorem GetPeerHostPort_gateway (clientset : Clientset) (node : FabricPeer)
    (gw : FabricGatewayApi) (h : 0 < gw.Hosts.length)
    (hm : meshHosts node.Spec.Istio = []) (hp : proxyHosts node.Spec.Traefik = [])
    (hg : node.Spec.GatewayApi = some gw) :
    GetPeerHostPort clientset node = .ok { Host := gw.Hosts[0], Port := gw.Port } := by
  obtain ⟨tl, htl⟩ := gateway_present_cases h
  rw [htl] at hg
  rcases meshHosts_eq_nil_cases hm with hm | ⟨_, hm⟩ <;>
    rcases proxyHosts_eq_nil_cases hp with hp | hp <;>
    simp only [GetPeerHostPort, hm, hp, hg]

/-- C5, as stated, fails: the peer `peerBoth` has no mesh ingress and both a gateway host
and a reverse-proxy host, and `GetPeerHostPort` returns the reverse-proxy host with port
443, not `(GatewayApi.Hosts[0], GatewayApi.Port)`; so the statement that every such peer
resolves to its gateway is false. -/
theorem peer_gateway_before_proxy_fails :
    meshHosts peerBoth.Spec.Istio = [] ∧
    peerBoth.Spec.GatewayApi = some { Port := 8443, Hosts := ["gw.example.com"] } ∧
    peerBoth.Spec.Traefik = some { Hosts := ["proxy.example.com"] } ∧
    GetPeerHostPort withIP peerBoth = .ok { Host := "proxy.example.com", Port := 443 } ∧
    ¬ (∀ (clientset : Clientset) (node : FabricPeer) (gw : FabricGatewayApi)
        (px : FabricTraefik) (h : 0 < gw.Hosts.length), 0 < px.Hosts.length →
        meshHosts node.Spec.Istio = [] → node.Spec.GatewayApi = some gw →
        node.Spec.Traefik = some px →
        GetPeerHostPort clientset node = .ok { Host := gw.Hosts[0], Port := gw.Port }) := by
  refine ⟨rfl, rfl, rfl, rfl, ?_⟩
  intro hall
  have hgw := hall withIP peerBoth { Port := 8443, Hosts := ["gw.example.com"] }
    { Hosts := ["proxy.example.com"] } (by decide) (by decide) rfl rfl rfl
  revert hgw
  decide

/-- C5, amended: for every peer record `GetPeerHostPort` applies the precedence mesh,
reverse proxy, gateway, fallback. With the mesh hosts non-empty it returns the mesh host and
port; with the mesh absent or empty and the reverse-proxy hosts non-empty it returns
`(Traefik.Hosts[0], 443)`, whatever the gateway holds, so also when the gateway has hosts;
with mesh and reverse proxy absent or empty and the gateway hosts non-empty it returns
`(GatewayApi.Hosts[0], GatewayApi.Port)`; with all three absent or empty it returns the
fallback. -/
theorem peer_precedence :
    (∀ (clientset : Clientset) (node : FabricPeer) (istio : FabricIstio)
        (h : 0 < istio.Hosts.length), node.Spec.Istio = some istio →
        GetPeerHostPort clientset node = .ok { Host := istio.Hosts[0], Port := istio.Port }) ∧
    (∀ (clientset : Clientset) (node : FabricPeer) (px : FabricTraefik)
        (h : 0 < px.Hosts.length), meshHosts node.Spec.Istio = [] →
        node.Spec.Traefik = some px →
        GetPeerHostPort clientset node = .ok { Host := px.Hosts[0], Port := 443 }) ∧
    (∀ (clientset : Clientset) (node : FabricPeer) (gw : FabricGatewayApi)
        (h : 0 < gw.Hosts.length), meshHosts node.Spec.Istio = [] →
        proxyHosts node.Spec.Traefik = [] → node.Spec.GatewayApi = some gw →
        GetPeerHostPort clientset node = .ok { Host := gw.Hosts[0], Port := gw.Port }) ∧
    (∀ (clientset : Clientset) (node : FabricPeer),
        meshHosts node.Spec.Istio = [] → gatewayHosts node.Spec.GatewayApi = [] →
        proxyHosts node.Spec.Traefik = [] →
        GetPeerHostPort clientset node = fallbackHostPort clientset node.Status.NodePort) :=
  ⟨GetPeerHostPort_mesh, GetPeerHostPort_proxy, GetPeerHostPort_gateway,
   GetPeerHostPort_fallback⟩

/-- C5, amended, at the peer with gateway and reverse proxy both configured and at the same
peer without its reverse proxy. -/
theorem peer_precedence_witness :
    GetPeerHostPort noIP peerBoth = .ok { Host := "proxy.example.com", Port := 443 } ∧
    GetPeerHostPort noIP { peerBoth with Spec := { peerBoth.Spec with Traefik := none } } =
      .ok { Host := "gw.example.com", Port := 8443 } :=
  ⟨peer_precedence.2.1 noIP peerBoth { Hosts := ["proxy.example.com"] }
      (by decide) (by decide) rfl,
   peer_precedence.2.2.1 noIP { peerBoth with Spec := { peerBoth.Spec with Traefik := none } }
      { Port := 8443, Hosts := ["gw.example.com"] } (by decide) (by decide) (by decide) rfl⟩

/-! ## Precedence for the client endpoint of an orderer node (C6) -/

theorem GetOrdererHostPort_proxy (clientset : Clientset) (node : FabricOrdererNode)
    (px : FabricTraefik) (h : 0 < px.Hosts.length)
    (hm : meshHosts node.Spec.Istio = []) (hp : node.Spec.Traefik = some px) :
    GetOrdererHostPort clientset node = .ok { Host := px.Hosts[0], Port := 443 } := by
  obtain ⟨tl, htl⟩ := proxy_present_cases h
  rw [htl] at hp
  rcases meshHosts_eq_nil_cases hm with hm | ⟨_, hm⟩ <;>
    simp only [GetOrdererHostPort, hm, hp]

theorem GetOrdererHostPort_gateway (clientset : Clientset) (node : FabricOrdererNode)
    (gw : FabricGatewayApi) (h : 0 < gw.Hosts.length)
    (hm : meshHosts node.Spec.Istio = []) (hp : proxyHosts node.Spec.Traefik = [])
    (hg : node.Spec.GatewayApi = some gw) :
    GetOrdererHostPort clientset node = .ok { Host := gw.Hosts[0], Port := gw.Port } := by
  obtain ⟨tl, htl⟩ := gateway_present_cases h
  rw [htl] at hg
  rcases meshHosts_eq_nil_cases hm with hm | ⟨_, hm⟩ <;>
    rcases proxyHosts_eq_nil_cases hp with hp | hp <;>
    simp only [GetOrdererHostPort, hm, hp, hg]

theorem GetOrdererPublicURL_eq (clientset : Clientset) (node : FabricOrdererNode) :
    GetOrdererPublicURL clientset node = (GetOrdererHostPort clientset node).map bareURL := by
  unfold GetOrdererPublicURL
  cases GetOrdererHostPort clientset node <;> rfl

/-- C6, as stated, fails: the orderer node `ordGateway` has neither mesh nor reverse-proxy
ingress, public-IP discovery answers `192.0.2.7` and the status node-port is 30050, yet its
public URL is the gateway's `gw.example.com:8443`; so the statement that every such node
gets the discovered address whatever the gateway field holds is false. -/
theorem orderer_ignores_gateway_fails :
    meshHosts ordGateway.Spec.Istio = [] ∧ proxyHosts ordGateway.Spec.Traefik = [] ∧
    ordGateway.Status.NodePort = 30050 ∧
    GetPublicIPKubernetes withIP = .ok "192.0.2.7" ∧
    GetOrdererPublicURL withIP ordGateway = .ok "gw.example.com:8443" ∧
    ¬ (∀ (clientset : Clientset) (node : FabricOrdererNode),
        meshHosts node.Spec.Istio = [] → proxyHosts node.Spec.Traefik = [] →
        GetOrdererPublicURL clientset node =
          (fallbackHostPort clientset node.Status.NodePort).map bareURL) := by
  refine ⟨rfl, rfl, rfl, rfl, by decide, ?_⟩
  intro hall
  have hfb := hall withIP ordGateway rfl rfl
  revert hfb
  decide

/-- C6, amended: for every orderer-node record the client endpoint of its public URL
(`GetOrdererPublicURL` through `GetOrdererHostPort`) is resolved by mesh, reverse proxy,
gateway, fallback. The public URL is `host:port` of the address `GetOrdererHostPort`
resolves; that address is the mesh host and port when the mesh hosts are non-empty, else
`(Traefik.Hosts[0], 443)` when the reverse-proxy hosts are non-empty, else
`(GatewayApi.Hosts[0], GatewayApi.Port)` when the gateway hosts are non-empty, and the
discovered public IP with `Status.NodePort` when all three are absent or empty. The
resolution with no gateway variant is that of `GetOrdererHostAndPort`: with mesh and
reverse proxy absent or empty it returns the discovered public IP with `Status.NodePort`
whatever the gateway field holds. -/
theorem orderer_precedence :
    (∀ (clientset : Clientset) (node : FabricOrdererNode),
        GetOrdererPublicURL clientset node =
          (GetOrdererHostPort clientset node).map bareURL) ∧
    (∀ (clientset : Clientset) (node : FabricOrdererNode) (istio : FabricIstio)
        (h : 0 < istio.Hosts.length), node.Spec.Istio = some istio →
        GetOrdererHostPort clientset node =
          .ok { Host := istio.Hosts[0], Port := istio.Port }) ∧
    (∀ (clientset : Clientset) (node : FabricOrdererNode) (px : FabricTraefik)
        (h : 0 < px.Hosts.length), meshHosts node.Spec.Istio = [] →
        node.Spec.Traefik = some px →
        GetOrdererHostPort clientset node = .ok { Host := px.Hosts[0], Port := 443 }) ∧
    (∀ (clientset : Clientset) (node : FabricOrdererNode) (gw : FabricGatewayApi)
        (h : 0 < gw.Hosts.length), meshHosts node.Spec.Istio = [] →
        proxyHosts node.Spec.Traefik = [] → node.Spec.GatewayApi = some gw →
        GetOrdererHostPort clientset node = .ok { Host := gw.Hosts[0], Port := gw.Port }) ∧
    (∀ (clientset : Clientset) (node : FabricOrdererNode),
        meshHosts node.Spec.Istio = [] → gatewayHosts node.Spec.GatewayApi = [] →
        proxyHosts node.Spec.Traefik = [] →
        GetOrdererHostPort clientset node =
          fallbackHostPort clientset node.Status.NodePort) ∧
    (∀ (clientset : Clientset) (nodeSpec : FabricOrdererNodeSpec)
        (nodeStatus : FabricOrdererNodeStatus),
        meshHosts nodeSpec.Istio = [] → proxyHosts nodeSpec.Traefik = [] →
        GetOrdererHostAndPort clientset nodeSpec nodeStatus =
          fallbackPair clientset nodeStatus.NodePort) :=
  ⟨GetOrdererPublicURL_eq, GetOrdererHostPort_mesh, GetOrdererHostPort_proxy,
   GetOrdererHostPort_gateway, GetOrdererHostPort_fallback, GetOrdererHostAndPort_fallback⟩

/-- C6, amended, at the orderer node exposed through the gateway only and at the node with
no mechanism. -/
theorem orderer_precedence_witness :
    GetOrdererHostPort withIP ordGateway = .ok { Host := "gw.example.com", Port := 8443 } ∧
    GetOrdererHostPort withIP ordBare = .ok { Host := "192.0.2.7", Port := 30050 } ∧
    GetOrdererHostAndPort withIP ordGateway.Spec ordGateway.Status =
      .ok ("192.0.2.7", 30050) :=
  ⟨orderer_precedence.2.2.2.1 withIP ordGateway { Port := 8443, Hosts := ["gw.example.com"] }
      (by decide) (by decide) (by decide) rfl,
   orderer_precedence.2.2.2.2.1 withIP ordBare (by decide) (by decide) (by decide),
   orderer_precedence.2.2.2.2.2 withIP ordGateway.Spec ordGateway.Status
      (by decide) (by decide)⟩

/-! ## The admin endpoint of an orderer node (C7) -/

theorem GetOrdererAdminHostAndPort_congr (clientset : Clientset)
    (spec₁ spec₂ : FabricOrdererNodeSpec) (status₁ status₂ : FabricOrdererNodeStatus)
    (hm : spec₁.AdminIstio = spec₂.AdminIstio) (hp : spec₁.AdminTraefik = spec₂.AdminTraefik)
    (hport : status₁.AdminPort = status₂.AdminPort) :
    GetOrdererAdminHostAndPort clientset spec₁ status₁ =
      GetOrdererAdminHostAndPort clientset spec₂ status₂ := by
  simp only [GetOrdererAdminHostAndPort, hm, hp, hport]

theorem GetOrdererAdminHostAndPort_mesh (clientset : Clientset)
    (nodeSpec : FabricOrdererNodeSpec) (nodeStatus : FabricOrdererNodeStatus)
    (istio : FabricIstio) (h : 0 < istio.Hosts.length)
    (hm : nodeSpec.AdminIstio = some istio) :
    GetOrdererAdminHostAndPort clientset nodeSpec nodeStatus =
      .ok (istio.Hosts[0], istio.Port) := by
  obtain ⟨tl, htl⟩ := mesh_present_cases h
  rw [htl] at hm
  simp only [GetOrdererAdminHostAndPort, hm]

theorem GetOrdererAdminHostAndPort_proxy (clientset : Clientset)
    (nodeSpec : FabricOrdererNodeSpec) (nodeStatus : FabricOrdererNodeStatus)
    (px : FabricTraefik) (h : 0 < px.Hosts.length)
    (hm : meshHosts nodeSpec.AdminIstio = []) (hp : nodeSpec.AdminTraefik = some px) :
    GetOrdererAdminHostAndPort clientset nodeSpec nodeStatus = .ok (px.Hosts[0], 443) := by
  obtain ⟨tl, htl⟩ := proxy_present_cases h
  rw [htl] at hp
  rcases meshHosts_eq_nil_cases hm with hm | ⟨_, hm⟩ <;>
    simp only [GetOrdererAdminHostAndPort, hm, hp]

theorem GetOrdererAdminHostAndPort_fallback (clientset : Clientset)
    (nodeSpec : FabricOrdererNodeSpec) (nodeStatus : FabricOrdererNodeStatus)
    (hm : meshHosts nodeSpec.AdminIstio = []) (hp : proxyHosts nodeSpec.AdminTraefik = []) :
    GetOrdererAdminHostAndPort clientset nodeSpec nodeStatus =
      fallbackPair clientset nodeStatus.AdminPort := by
  rcases meshHosts_eq_nil_cases hm with hm | ⟨_, hm⟩ <;>
  rcases proxyHosts_eq_nil_cases hp with hp | hp <;>
  · simp only [GetOrdererAdminHostAndPort, fallbackPair, hm, hp]
    cases GetPublicIPKubernetes clientset <;> rfl

/-- C7: for every orderer-node record `GetOrdererAdminHostAndPort` resolves the admin
endpoint from the admin exposure fields only: `(AdminIstio.Hosts[0], AdminIstio.Port)` when
the admin mesh hosts are non-empty, else `(AdminTraefik.Hosts[0], 443)` when the admin
reverse-proxy hosts are non-empty, else the discovered public IP with `Status.AdminPort` (or
discovery's error). Two calls whose specs agree on `AdminIstio` and `AdminTraefik` and whose
statuses agree on `AdminPort` return the same result, so the client-facing `Istio`,
`Traefik` and `GatewayApi` fields and `Status.NodePort` have no influence. -/
theorem admin_endpoint_resolution :
    (∀ (clientset : Clientset) (nodeSpec : FabricOrdererNodeSpec)
        (nodeStatus : FabricOrdererNodeStatus) (istio : FabricIstio)
        (h : 0 < istio.Hosts.length), nodeSpec.AdminIstio = some istio →
        GetOrdererAdminHostAndPort clientset nodeSpec nodeStatus =
          .ok (istio.Hosts[0], istio.Port)) ∧
    (∀ (clientset : Clientset) (nodeSpec : FabricOrdererNodeSpec)
        (nodeStatus : FabricOrdererNodeStatus) (px : FabricTraefik)
        (h : 0 < px.Hosts.length), meshHosts nodeSpec.AdminIstio = [] →
        nodeSpec.AdminTraefik = some px →
        GetOrdererAdminHostAndPort clientset nodeSpec nodeStatus = .ok (px.Hosts[0], 443)) ∧
    (∀ (clientset : Clientset) (nodeSpec : FabricOrdererNodeSpec)
        (nodeStatus : FabricOrdererNodeStatus), meshHosts nodeSpec.AdminIstio = [] →
        proxyHosts nodeSpec.AdminTraefik = [] →
        GetOrdererAdminHostAndPort clientset nodeSpec nodeStatus =
          fallbackPair clientset nodeStatus.AdminPort) ∧
    (∀ (clientset : Clientset) (spec₁ spec₂ : FabricOrdererNodeSpec)
        (status₁ status₂ : FabricOrdererNodeStatus),
        spec₁.AdminIstio = spec₂.AdminIstio → spec₁.AdminTraefik = spec₂.AdminTraefik →
        status₁.AdminPort = status₂.AdminPort →
        GetOrdererAdminHostAndPort clientset spec₁ status₁ =
          GetOrdererAdminHostAndPort clientset spec₂ status₂) :=
  ⟨GetOrdererAdminHostAndPort_mesh, GetOrdererAdminHostAndPort_proxy,
   GetOrdererAdminHostAndPort_fallback, GetOrdererAdminHostAndPort_congr⟩

/-- C7 at orderer nodes exposed through the admin mesh, the admin reverse proxy and
neither, the last two having client-facing mechanisms configured. -/
theorem admin_endpoint_resolution_witness :
    GetOrdererAdminHostAndPort noIP ordAdminMesh.Spec ordAdminMesh.Status =
      .ok ("admin.example.com", 9443) ∧
    GetOrdererAdminHostAndPort noIP ordAdminProxy.Spec ordAdminProxy.Status =
      .ok ("admin-proxy.example.com", 443) ∧
    GetOrdererAdminHostAndPort withIP ord0.Spec ord0.Status = .ok ("192.0.2.7", 30053) ∧
    GetOrdererAdminHostAndPort withIP ord0.Spec ord0.Status =
      GetOrdererAdminHostAndPort withIP ordBare.Spec ordBare.Status :=
  ⟨admin_endpoint_resolution.1 noIP ordAdminMesh.Spec ordAdminMesh.Status
      { Port := 9443, Hosts := ["admin.example.com"] } (by decide) rfl,
   admin_endpoint_resolution.2.1 noIP ordAdminProxy.Spec ordAdminProxy.Status
      { Hosts := ["admin-proxy.example.com"] } (by decide) (by decide) rfl,
   admin_endpoint_resolution.2.2.1 withIP ord0.Spec ord0.Status (by decide) (by decide),
   admin_endpoint_resolution.2.2.2 withIP ord0.Spec ordBare.Spec ord0.Status ordBare.Status
      rfl rfl rfl⟩

/-! ## Private URLs (C8) -/

/-- C8: for every CA, peer and orderer-node record the private URL is
`name + "." + namespace + ":" + port` with port 7054 for `GetCAPrivateURL`, 7051 for
`GetPeerPrivateURL` and 7050 for `GetOrdererPrivateURL`. The three functions take the record
alone and return a string: there is no client handle to call and no error to return. Two
records with the same name and namespace have the same private URL, whatever their exposure
configuration and status. -/
theorem private_url_fixed_port :
    (∀ node : FabricCA,
        GetCAPrivateURL node = node.Name ++ "." ++ node.Namespace ++ ":" ++ "7054") ∧
    (∀ node : FabricPeer,
        GetPeerPrivateURL node = node.Name ++ "." ++ node.Namespace ++ ":" ++ "7051") ∧
    (∀ node : FabricOrdererNode,
        GetOrdererPrivateURL node = node.Name ++ "." ++ node.Namespace ++ ":" ++ "7050") ∧
    (∀ node₁ node₂ : FabricCA, node₁.Name = node₂.Name → node₁.Namespace = node₂.Namespace →
        GetCAPrivateURL node₁ = GetCAPrivateURL node₂) ∧
    (∀ node₁ node₂ : FabricPeer, node₁.Name = node₂.Name →
        node₁.Namespace = node₂.Namespace →
        GetPeerPrivateURL node₁ = GetPeerPrivateURL node₂) ∧
    (∀ node₁ node₂ : FabricOrdererNode, node₁.Name = node₂.Name →
        node₁.Namespace = node₂.Namespace →
        GetOrdererPrivateURL node₁ = GetOrdererPrivateURL node₂) := by
  refine ⟨fun _ => rfl, fun _ => rfl, fun _ => rfl, ?_, ?_, ?_⟩
  · intro node₁ node₂ hn hns
    simp only [GetCAPrivateURL, hn, hns]
  · intro node₁ node₂ hn hns
    simp only [GetPeerPrivateURL, hn, hns]
  · intro node₁ node₂ hn hns
    simp only [GetOrdererPrivateURL, hn, hns]

/-- C8 at the scenario's peer and at records that differ in exposure and status only. -/
theorem private_url_fixed_port_witness :
    GetPeerPrivateURL peer0 = "peer0.org1:7051" ∧
    GetCAPrivateURL ca0 = "ca0.org1:7054" ∧
    GetOrdererPrivateURL ord0 = "ord0.ordns:7050" ∧
    GetCAPrivateURL ca0 = GetCAPrivateURL { ca0 with Spec := caBoth.Spec, Status := {} } ∧
    GetPeerPrivateURL peer0 =
      GetPeerPrivateURL { peer0 with Spec := peerBoth.Spec, Status := {} } ∧
    GetOrdererPrivateURL ord0 =
      GetOrdererPrivateURL { ord0 with Spec := ordGateway.Spec, Status := {} } :=
  ⟨(private_url_fixed_port.2.1 peer0).trans (by decide),
   (private_url_fixed_port.1 ca0).trans (by decide),
   (private_url_fixed_port.2.2.1 ord0).trans (by decide),
   private_url_fixed_port.2.2.2.1 ca0 { ca0 with Spec := caBoth.Spec, Status := {} } rfl rfl,
   private_url_fixed_port.2.2.2.2.1 peer0 { peer0 with Spec := peerBoth.Spec, Status := {} }
      rfl rfl,
   private_url_fixed_port.2.2.2.2.2 ord0 { ord0 with Spec := ordGateway.Spec, Status := {} }
      rfl rfl⟩

/-! ## The scheme of the mapped URLs (C9) -/

/-- C9, as stated, fails: the certificate authority `ca0` resolves to
`ca0.example.com:443` and maps successfully, and the `PublicURL` of the mapped `ClusterCA`
is that bare `host:port`, not `https://` followed by it. -/
theorem ca_public_url_https_fails :
    GetCAHostPort noIP ca0 = .ok { Host := "ca0.example.com", Port := 443 } ∧
    (MapClusterCA noIP ca0).map (fun c => c.PublicURL) = .ok "ca0.example.com:443" ∧
    (MapClusterCA noIP ca0).map (fun c => c.PublicURL) ≠ .ok "https://ca0.example.com:443" := by
  refine ⟨rfl, by decide, by decide⟩

/-- C9, amended: for every record that maps successfully, the `AdminURL` of the
`ClusterOrdererNode` returned by `MapClusterOrdererNode` is `https://` followed by
`host:port` of the resolved admin address, while the `PublicURL` of the `ClusterCA` returned
by `MapClusterCA`, of a `ClusterPeer` and of a `ClusterOrdererNode` is the bare `host:port`
of the resolved address, with no scheme put before it. -/
theorem mapped_url_scheme :
    (∀ (clientSet : Clientset) (certAuth : FabricCA) (c : ClusterCA),
        MapClusterCA clientSet certAuth = .ok c →
        ∃ hostPort, GetCAHostPort clientSet certAuth = .ok hostPort ∧
          c.PublicURL = hostPort.Host ++ ":" ++ toString hostPort.Port) ∧
    (∀ (clientSet : Clientset) (peer : FabricPeer) (c : ClusterPeer),
        MapClusterPeer clientSet peer = .ok c →
        ∃ hostPort, GetPeerHostPort clientSet peer = .ok hostPort ∧
          c.PublicURL = hostPort.Host ++ ":" ++ toString hostPort.Port) ∧
    (∀ (clientSet : Clientset) (ordNode : FabricOrdererNode) (c : ClusterOrdererNode),
        MapClusterOrdererNode clientSet ordNode = .ok c →
        ∃ hostPort host port, GetOrdererHostPort clientSet ordNode = .ok hostPort ∧
          GetOrdererAdminHostAndPort clientSet ordNode.Spec ordNode.Status = .ok (host, port) ∧
          c.PublicURL = hostPort.Host ++ ":" ++ toString hostPort.Port ∧
          c.AdminURL = "https://" ++ host ++ ":" ++ toString port) := by
  refine ⟨?_, ?_, ?_⟩
  · intro clientSet certAuth c hc
    unfold MapClusterCA GetCAPublicURL at hc
    cases hr : GetCAHostPort clientSet certAuth with
    | error err => simp [hr] at hc
    | ok hostPort =>
      simp only [hr, Except.ok.injEq] at hc
      exact ⟨hostPort, rfl, by rw [← hc]⟩
  · intro clientSet peer c hc
    unfold MapClusterPeer GetPeerPublicURL at hc
    cases hr : GetPeerHostPort clientSet peer with
    | error err => simp [hr] at hc
    | ok hostPort =>
      simp only [hr, Except.ok.injEq] at hc
      exact ⟨hostPort, rfl, by rw [← hc]⟩
  · intro clientSet ordNode c hc
    unfold MapClusterOrdererNode GetOrdererPublicURL GetAdminOrdererPublicURL at hc
    cases hr : GetOrdererHostPort clientSet ordNode with
    | error err => simp [hr] at hc
    | ok hostPort =>
      cases ha : GetOrdererAdminHostAndPort clientSet ordNode.Spec ordNode.Status with
      | error err => simp [hr, ha] at hc
      | ok pair =>
        obtain ⟨host, port⟩ := pair
        simp only [hr, ha, Except.ok.injEq] at hc
        exact ⟨hostPort, host, port, rfl, rfl, by rw [← hc], by rw [← hc]⟩

/-- C9, amended, at records that map successfully. -/
theorem mapped_url_scheme_witness :
    (∃ hostPort, GetCAHostPort noIP ca0 = .ok hostPort ∧
      "ca0.example.com:443" = hostPort.Host ++ ":" ++ toString hostPort.Port) ∧
    (∃ hostPort, GetPeerHostPort noIP peer0 = .ok hostPort ∧
      "peer0.example.com:443" = hostPort.Host ++ ":" ++ toString hostPort.Port) ∧
    (∃ hostPort host port, GetOrdererHostPort withIP ord0 = .ok hostPort ∧
      GetOrdererAdminHostAndPort withIP ord0.Spec ord0.Status = .ok (host, port) ∧
      "ord0.example.com:443" = hostPort.Host ++ ":" ++ toString hostPort.Port ∧
      "https://192.0.2.7:30053" = "https://" ++ host ++ ":" ++ toString port) :=
  ⟨mapped_url_scheme.1 noIP ca0
      { Object := ca0, Spec := ca0.Spec, Status := ca0.Status, Name := "ca0.org1",
        Namespace := "org1", PublicURL := "ca0.example.com:443",
        PrivateURL := "ca0.org1:7054", Item := ca0 } (by decide),
   mapped_url_scheme.2.1 noIP peer0
      { Name := "peer0.org1", ObjectMeta := peer0.ObjectMeta, Namespace := "org1",
        Object := peer0, Spec := peer0.Spec, Status := peer0.Status,
        PublicURL := "peer0.example.com:443", PrivateURL := "peer0.org1:7051",
        MSPID := "Org1MSP" } (by decide),
   mapped_url_scheme.2.2 withIP ord0
      { Name := "ord0.ordns", AdminURL := "https://192.0.2.7:30053", Namespace := "ordns",
        ObjectMeta := ord0.ObjectMeta, Spec := ord0.Spec, Status := ord0.Status,
        PublicURL := "ord0.example.com:443", PrivateURL := "ord0.ordns:7050" } (by decide)⟩

/-! ## Peers are partitioned by MSP ID (C10) -/

theorem mapPeerItems_loop (clientSet : Clientset) (items : List FabricPeer) :
    ∀ (acc peers : List ClusterPeer),
      items.foldlM
        (fun peers peer =>
          match MapClusterPeer clientSet peer with
          | .error err => (.error err : Except String (List ClusterPeer))
          | .ok clusterPeer => .ok (peers ++ [clusterPeer])) acc = .ok peers →
      ∃ ps, peers = acc ++ ps ∧
        List.Forall₂ (fun item p => MapClusterPeer clientSet item = .ok p) items ps := by
  induction items with
  | nil =>
    intro acc peers h
    simp only [List.foldlM_nil, pure, Except.pure, Except.ok.injEq] at h
    exact ⟨[], by simp [h], List.Forall₂.nil⟩
  | cons item rest ih =>
    intro acc peers h
    rw [List.foldlM_cons] at h
    cases hm : MapClusterPeer clientSet item with
    | error err => simp [hm, bind, Except.bind] at h
    | ok cp =>
      simp only [hm, bind, Except.bind] at h
      obtain ⟨ps, hps, hall⟩ := ih _ _ h
      exact ⟨cp :: ps, by simp [hps], List.Forall₂.cons hm hall⟩

theorem mapPeerItems_ok (clientSet : Clientset) (items : List FabricPeer)
    (peers : List ClusterPeer) (h : mapPeerItems clientSet items = .ok peers) :
    List.Forall₂ (fun item p => MapClusterPeer clientSet item = .ok p) items peers := by
  obtain ⟨ps, hps, hall⟩ := mapPeerItems_loop clientSet items [] peers h
  simpa [hps] using hall

theorem groupPeer_nil (p : ClusterPeer) :
    groupPeer [] p =
      [(p.Spec.MspID, { Type_ := PeerType, MspID := p.Spec.MspID, Peers := [p] })] := rfl

theorem groupPeer_cons_eq (o : Organization) (rest : OrgMap) (p : ClusterPeer) :
    groupPeer ((p.Spec.MspID, o) :: rest) p =
      (p.Spec.MspID, { o with Peers := o.Peers ++ [p] }) :: rest := by
  simp [groupPeer, OrgMap.find, OrgMap.store]

theorem groupPeer_cons_ne (k : String) (o : Organization) (rest : OrgMap) (p : ClusterPeer)
    (h : k ≠ p.Spec.MspID) :
    groupPeer ((k, o) :: rest) p = (k, o) :: groupPeer rest p := by
  simp [groupPeer, OrgMap.find, OrgMap.store, h]

theorem groupPeer_keys (m : OrgMap) (p : ClusterPeer) (k : String) :
    k ∈ (groupPeer m p).map (fun e => e.1) ↔
      k ∈ m.map (fun e => e.1) ∨ k = p.Spec.MspID := by
  induction m with
  | nil => simp [groupPeer_nil]
  | cons e rest ih =>
    obtain ⟨k', o⟩ := e
    by_cases h : k' = p.Spec.MspID
    · subst h
      rw [groupPeer_cons_eq]
      simp only [List.map_cons, List.mem_cons]
      tauto
    · rw [groupPeer_cons_ne k' o rest p h]
      simp only [List.map_cons, List.mem_cons, ih]
      tauto

theorem groupPeer_nodup (m : OrgMap) (p : ClusterPeer)
    (h : (m.map (fun e => e.1)).Nodup) : ((groupPeer m p).map (fun e => e.1)).Nodup := by
  induction m with
  | nil => simp [groupPeer_nil]
  | cons e rest ih =>
    obtain ⟨k', o⟩ := e
    simp only [List.map_cons, List.nodup_cons] at h
    by_cases hk : k' = p.Spec.MspID
    · subst hk
      rw [groupPeer_cons_eq]
      simpa using h
    · rw [groupPeer_cons_ne k' o rest p hk]
      simp only [List.map_cons, List.nodup_cons]
      refine ⟨?_, ih h.2⟩
      rw [groupPeer_keys]
      rintro (hmem | heq)
      · exact h.1 hmem
      · exact hk heq

theorem groupPeer_forall (P : String × Organization → Prop) (m : OrgMap) (p : ClusterPeer)
    (hnew : P (p.Spec.MspID, { Type_ := PeerType, MspID := p.Spec.MspID, Peers := [p] }))
    (hupd : ∀ o, P (p.Spec.MspID, o) → P (p.Spec.MspID, { o with Peers := o.Peers ++ [p] }))
    (h : ∀ e ∈ m, P e) : ∀ e ∈ groupPeer m p, P e := by
  induction m with
  | nil =>
    intro e he
    rw [groupPeer_nil, List.mem_singleton] at he
    exact he ▸ hnew
  | cons e' rest ih =>
    obtain ⟨k', o⟩ := e'
    intro e he
    by_cases hk : k' = p.Spec.MspID
    · subst hk
      rw [groupPeer_cons_eq, List.mem_cons] at he
      rcases he with he | he
      · exact he ▸ hupd o (h _ (List.mem_cons_self _ _))
      · exact h e (List.mem_cons_of_mem _ he)
    · rw [groupPeer_cons_ne k' o rest p hk, List.mem_cons] at he
      rcases he with he | he
      · exact he ▸ h _ (List.mem_cons_self _ _)
      · exact ih (fun x hx => h x (List.mem_cons_of_mem _ hx)) e he

theorem groupPeer_perm (m : OrgMap) (p : ClusterPeer) :
    ((groupPeer m p).flatMap (fun e => e.2.Peers)).Perm
      (m.flatMap (fun e => e.2.Peers) ++ [p]) := by
  induction m with
  | nil => simp [groupPeer_nil]
  | cons e rest ih =>
    obtain ⟨k', o⟩ := e
    by_cases hk : k' = p.Spec.MspID
    · subst hk
      rw [groupPeer_cons_eq]
      simp only [List.flatMap_cons, List.append_assoc]
      exact List.Perm.append_left _ List.perm_append_comm
    · rw [groupPeer_cons_ne k' o rest p hk]
      simp only [List.flatMap_cons, List.append_assoc]
      exact List.Perm.append_left _ ih

theorem Grouped.step {m : OrgMap} {ps : List ClusterPeer} (h : Grouped m ps)
    (p : ClusterPeer) : Grouped (groupPeer m p) (ps ++ [p]) := by
  obtain ⟨hnd, hall, hperm⟩ := h
  refine ⟨groupPeer_nodup m p hnd, ?_, (groupPeer_perm m p).trans (hperm.append_right _)⟩
  apply groupPeer_forall _ m p _ _ hall
  · simp
  · rintro o ⟨h1, h2, -, h4⟩
    refine ⟨h1, h2, by simp, ?_⟩
    intro q hq
    rcases List.mem_append.1 hq with hq | hq
    · exact h4 q hq
    · rw [List.mem_singleton.1 hq]

theorem Grouped.foldl (l : List ClusterPeer) :
    ∀ {m : OrgMap} {ps : List ClusterPeer}, Grouped m ps →
      Grouped (l.foldl groupPeer m) (ps ++ l) := by
  induction l with
  | nil => intro m ps h; simpa using h
  | cons p rest ih =>
    intro m ps h
    have := ih (h.step p)
    simpa using this

theorem Grouped.nil : Grouped [] [] := by
  simp [Grouped]

theorem Grouped.of_perm {m m' : OrgMap} {ps : List ClusterPeer} (h : Grouped m ps)
    (hp : m'.Perm m) : Grouped m' ps := by
  obtain ⟨hnd, hall, hperm⟩ := h
  refine ⟨((hp.map _).nodup_iff).2 hnd, fun e he => hall e (hp.mem_iff.1 he),
    (hp.flatMap_right _).trans hperm⟩

theorem Grouped.organizations {m : OrgMap} {peers : List ClusterPeer} (h : Grouped m peers) :
    (∀ p ∈ peers, ∃! o, o ∈ m.map (fun entry => entry.2) ∧ p ∈ o.Peers) ∧
    (∀ o ∈ m.map (fun entry => entry.2), ∀ p ∈ o.Peers, o.MspID = p.Spec.MspID) ∧
    ((m.map (fun entry => entry.2)).map (fun o => o.MspID)).Nodup ∧
    (∀ o ∈ m.map (fun entry => entry.2), o.Peers ≠ []) ∧
    (∀ o ∈ m.map (fun entry => entry.2), o.Type_ = PeerType) ∧
    ((m.map (fun entry => entry.2)).flatMap (fun o => o.Peers)).Perm peers := by
  obtain ⟨hnd, hall, hperm⟩ := h
  have hkeys : (m.map (fun entry => entry.2)).map (fun o => o.MspID) =
      m.map (fun e => e.1) := by
    rw [List.map_map]
    exact List.map_congr_left (fun e he => (hall e he).1)
  have hflat : (m.map (fun entry => entry.2)).flatMap (fun o => o.Peers) =
      m.flatMap (fun e => e.2.Peers) := by
    clear hnd hall hperm hkeys
    induction m with
    | nil => rfl
    | cons e rest ih => simp only [List.map_cons, List.flatMap_cons, ih]
  have hmsp : ∀ o ∈ m.map (fun entry => entry.2), ∀ p ∈ o.Peers, o.MspID = p.Spec.MspID := by
    intro o ho p hp
    obtain ⟨e, he, rfl⟩ := List.mem_map.1 ho
    obtain ⟨h1, -, -, h4⟩ := hall e he
    rw [h1, h4 p hp]
  have hnd' : ((m.map (fun entry => entry.2)).map (fun o => o.MspID)).Nodup := by
    rw [hkeys]; exact hnd
  refine ⟨?_, hmsp, hnd', ?_, ?_, hflat ▸ hperm⟩
  · intro p hp
    have hp' : p ∈ (m.map (fun entry => entry.2)).flatMap (fun o => o.Peers) := by
      rw [hflat]; exact hperm.mem_iff.2 hp
    obtain ⟨o, ho, hpo⟩ := List.mem_flatMap.1 hp'
    refine ⟨o, ⟨ho, hpo⟩, ?_⟩
    rintro o' ⟨ho', hpo'⟩
    exact List.inj_on_of_nodup_map hnd' ho' ho
      ((hmsp o' ho' p hpo').trans (hmsp o ho p hpo).symm)
  · intro o ho
    obtain ⟨e, he, rfl⟩ := List.mem_map.1 ho
    exact (hall e he).2.2.1
  · intro o ho
    obtain ⟨e, he, rfl⟩ := List.mem_map.1 ho
    exact (hall e he).2.1

theorem GetClusterPeers_ok (rangeOrder : RangeOrder) (clientSet : Clientset)
    (oclient : OperatorClientset) (ns : String) (organizations : List Organization)
    (peers : List ClusterPeer)
    (h : GetClusterPeers rangeOrder clientSet oclient ns = .ok (organizations, peers)) :
    ∃ items, oclient.FabricPeers ns = .ok items ∧ mapPeerItems clientSet items = .ok peers ∧
      organizations =
        (rangeOrder.visit (peers.foldl groupPeer [])).map (fun entry => entry.2) := by
  unfold GetClusterPeers at h
  cases hl : oclient.FabricPeers ns with
  | error err => simp [hl] at h
  | ok items =>
    cases hm : mapPeerItems clientSet items with
    | error err => simp [hl, hm] at h
    | ok ps =>
      simp only [hl, hm, Except.ok.injEq, Prod.mk.injEq] at h
      obtain ⟨h1, h2⟩ := h
      subst h2
      exact ⟨items, rfl, hm, h1.symm⟩

/-- C10: for every store, cluster and visiting order on which `GetClusterPeers` succeeds,
the returned organizations partition the returned peers by MSP ID: every returned peer is
in the `Peers` of exactly one returned organization; the `MspID` of an organization is the
`Spec.MspID` of each of its peers; no two returned organizations have the same `MspID`; no
organization is empty; every organization has type `PEER`; the peers of all organizations
together are the returned peers, each as often as it is returned; and the returned peers
are, in order, what `MapClusterPeer` makes of the listed records, one per record. -/
theorem peers_partitioned_by_msp (rangeOrder : RangeOrder) (clientSet : Clientset)
    (oclient : OperatorClientset) (ns : String) (organizations : List Organization)
    (peers : List ClusterPeer)
    (h : GetClusterPeers rangeOrder clientSet oclient ns = .ok (organizations, peers)) :
    (∀ p ∈ peers, ∃! o, o ∈ organizations ∧ p ∈ o.Peers) ∧
    (∀ o ∈ organizations, ∀ p ∈ o.Peers, o.MspID = p.Spec.MspID) ∧
    (organizations.map (fun o => o.MspID)).Nodup ∧
    (∀ o ∈ organizations, o.Peers ≠ []) ∧
    (∀ o ∈ organizations, o.Type_ = PeerType) ∧
    (organizations.flatMap (fun o => o.Peers)).Perm peers ∧
    (∃ items, oclient.FabricPeers ns = .ok items ∧
      List.Forall₂ (fun item p => MapClusterPeer clientSet item = .ok p) items peers) := by
  obtain ⟨items, hitems, hmap, horgs⟩ :=
    GetClusterPeers_ok rangeOrder clientSet oclient ns organizations peers h
  have hfold : Grouped (peers.foldl groupPeer []) peers := by
    simpa using Grouped.foldl peers Grouped.nil
  have hvisit := (hfold.of_perm (rangeOrder.perm _)).organizations
  rw [← horgs] at hvisit
  obtain ⟨h1, h2, h3, h4, h5, h6⟩ := hvisit
  exact ⟨h1, h2, h3, h4, h5, h6, items, hitems, mapPeerItems_ok clientSet items peers hmap⟩

/-- C10 at a store of three peers of two organizations, visited last to first. -/
theorem peers_partitioned_by_msp_witness :
    GetClusterPeers lastFirst withIP peerStore "" =
      .ok (peerOrganizations, [clusterPeer0, clusterPeer2, clusterPeer1]) ∧
    (peerOrganizations.map (fun o => o.MspID)).Nodup ∧
    (peerOrganizations.flatMap (fun o => o.Peers)).Perm
      [clusterPeer0, clusterPeer2, clusterPeer1] ∧
    (∀ p ∈ [clusterPeer0, clusterPeer2, clusterPeer1],
      ∃! o, o ∈ peerOrganizations ∧ p ∈ o.Peers) :=
  ⟨rfl,
   (peers_partitioned_by_msp lastFirst withIP peerStore "" peerOrganizations
      [clusterPeer0, clusterPeer2, clusterPeer1] rfl).2.2.1,
   (peers_partitioned_by_msp lastFirst withIP peerStore "" peerOrganizations
      [clusterPeer0, clusterPeer2, clusterPeer1] rfl).2.2.2.2.2.1,
   (peers_partitioned_by_msp lastFirst withIP peerStore "" peerOrganizations
      [clusterPeer0, clusterPeer2, clusterPeer1] rfl).1⟩

/-! ## Peer grouping does not depend on the listing order (C11) -/

theorem appendEach_ok_iff {α β : Type} (f : α → Except String β) (items : List α) :
    ∀ (init out : List β), appendEach f items init = .ok out ↔
      ∃ ys, out = init ++ ys ∧ List.Forall₂ (fun x y => f x = .ok y) items ys := by
  induction items with
  | nil =>
    intro init out
    simp only [appendEach, List.foldlM_nil, pure, Except.pure, Except.ok.injEq,
      List.forall₂_nil_left_iff]
    constructor
    · intro h; exact ⟨[], by simp [h], rfl⟩
    · rintro ⟨ys, h, rfl⟩; simp [h]
  | cons x rest ih =>
    intro init out
    have hstep : appendEach f (x :: rest) init =
        match f x with
        | .error err => .error err
        | .ok y => appendEach f rest (init ++ [y]) := by
      simp only [appendEach, List.foldlM_cons, bind, Except.bind]
      cases f x <;> rfl
    rw [hstep]
    cases hx : f x with
    | error err =>
      simp only [List.forall₂_cons_left_iff, hx]
      constructor
      · intro h; cases h
      · rintro ⟨ys, -, y, ys', hy, -, -⟩; cases hy
    | ok y =>
      simp only [ih, List.forall₂_cons_left_iff, hx, Except.ok.injEq]
      constructor
      · rintro ⟨ys, h, hall⟩
        exact ⟨y :: ys, by simp [h], y, ys, rfl, hall, rfl⟩
      · rintro ⟨ys, h, y', ys', hy, hall, rfl⟩
        subst hy
        exact ⟨ys', by simp [h], hall⟩

theorem mapPeerItems_eq_appendEach (clientSet : Clientset) (items : List FabricPeer) :
    mapPeerItems clientSet items = appendEach (MapClusterPeer clientSet) items [] := by
  unfold mapPeerItems appendEach
  congr
  funext peers peer
  cases MapClusterPeer clientSet peer <;> rfl

theorem mapPeerItems_ok_iff (clientSet : Clientset) (items : List FabricPeer)
    (peers : List ClusterPeer) :
    mapPeerItems clientSet items = .ok peers ↔
      List.Forall₂ (fun item p => MapClusterPeer clientSet item = .ok p) items peers := by
  rw [mapPeerItems_eq_appendEach, appendEach_ok_iff]
  simp

theorem forall₂_ok_unique {α β : Type} (f : α → Except String β) {items : List α} :
    ∀ {ys zs : List β}, List.Forall₂ (fun x y => f x = .ok y) items ys →
      List.Forall₂ (fun x y => f x = .ok y) items zs → ys = zs := by
  induction items with
  | nil =>
    intro ys zs h₁ h₂
    cases h₁; cases h₂; rfl
  | cons x rest ih =>
    intro ys zs h₁ h₂
    cases h₁ with
    | cons hy hys =>
      cases h₂ with
      | cons hz hzs =>
        rw [hy] at hz
        cases hz
        rw [ih hys hzs]

theorem forall₂_ok_perm {α β : Type} (f : α → Except String β) {items₁ items₂ : List α}
    {ys : List β} (hperm : items₁.Perm items₂)
    (h : List.Forall₂ (fun x y => f x = .ok y) items₂ ys) :
    ∃ zs, List.Forall₂ (fun x y => f x = .ok y) items₁ zs ∧ zs.Perm ys :=
  List.perm_comp_forall₂ hperm h

theorem peers_of_organization {orgs : List Organization} {peers : List ClusterPeer}
    (hnd : (orgs.map (fun o => o.MspID)).Nodup)
    (hmsp : ∀ o ∈ orgs, ∀ p ∈ o.Peers, o.MspID = p.Spec.MspID)
    (hperm : (orgs.flatMap (fun o => o.Peers)).Perm peers) :
    ∀ o ∈ orgs, o.Peers.Perm (peers.filter (fun p => p.Spec.MspID = o.MspID)) := by
  intro o ho
  refine List.Perm.trans ?_ (hperm.filter _)
  clear hperm
  induction orgs with
  | nil => cases ho
  | cons o' rest ih =>
    simp only [List.map_cons, List.nodup_cons] at hnd
    simp only [List.flatMap_cons, List.filter_append]
    rcases List.mem_cons.1 ho with rfl | ho'
    · have h1 : o.Peers.filter (fun p => p.Spec.MspID = o.MspID) = o.Peers := by
        rw [List.filter_eq_self]
        intro p hp
        simp [hmsp o (List.mem_cons_self _ _) p hp]
      have h2 : (rest.flatMap (fun o => o.Peers)).filter
          (fun p => decide (p.Spec.MspID = o.MspID)) = [] := by
        rw [List.filter_eq_nil_iff]
        intro p hp hpk
        obtain ⟨o'', ho'', hpo⟩ := List.mem_flatMap.1 hp
        apply hnd.1
        have := hmsp o'' (List.mem_cons_of_mem _ ho'') p hpo
        simp only [decide_eq_true_eq] at hpk
        rw [← hpk, ← this]
        exact List.mem_map_of_mem _ ho''
      rw [h1, h2, List.append_nil]
    · have h1 : o'.Peers.filter (fun p => decide (p.Spec.MspID = o.MspID)) = [] := by
        rw [List.filter_eq_nil_iff]
        intro p hp hpk
        apply hnd.1
        have := hmsp o' (List.mem_cons_self _ _) p hp
        simp only [decide_eq_true_eq] at hpk
        rw [this, hpk]
        exact List.mem_map_of_mem _ ho'
      rw [h1, List.nil_append]
      exact ih hnd.2 (fun x hx => hmsp x (List.mem_cons_of_mem _ hx)) ho'

theorem GetClusterPeers_of_mapped (rangeOrder : RangeOrder) (clientSet : Clientset)
    (oclient : OperatorClientset) (ns : String) (items : List FabricPeer)
    (peers : List ClusterPeer) (hitems : oclient.FabricPeers ns = .ok items)
    (hmap : mapPeerItems clientSet items = .ok peers) :
    GetClusterPeers rangeOrder clientSet oclient ns =
      .ok ((rangeOrder.visit (peers.foldl groupPeer [])).map (fun entry => entry.2), peers) := by
  simp only [GetClusterPeers, hitems, hmap]

theorem GetClusterPeers_organizations (rangeOrder : RangeOrder) (clientSet : Clientset)
    (oclient : OperatorClientset) (ns : String) (organizations : List Organization)
    (peers : List ClusterPeer)
    (h : GetClusterPeers rangeOrder clientSet oclient ns = .ok (organizations, peers)) :
    (organizations.map (fun o => o.MspID)).Nodup ∧
    (∀ o ∈ organizations, ∀ p ∈ o.Peers, o.MspID = p.Spec.MspID) ∧
    (∀ o ∈ organizations, o.Peers ≠ []) ∧
    (organizations.flatMap (fun o => o.Peers)).Perm peers := by
  obtain ⟨items, -, -, horgs⟩ :=
    GetClusterPeers_ok rangeOrder clientSet oclient ns organizations peers h
  have hfold : Grouped (peers.foldl groupPeer []) peers := by
    simpa using Grouped.foldl peers Grouped.nil
  have hvisit := (hfold.of_perm (rangeOrder.perm _)).organizations
  rw [← horgs] at hvisit
  exact ⟨hvisit.2.2.1, hvisit.2.1, hvisit.2.2.2.1, hvisit.2.2.2.2.2⟩

theorem organizations_correspond {orgs₁ orgs₂ : List Organization}
    {peers₁ peers₂ : List ClusterPeer}
    (hnd₁ : (orgs₁.map (fun o => o.MspID)).Nodup)
    (hmsp₁ : ∀ o ∈ orgs₁, ∀ p ∈ o.Peers, o.MspID = p.Spec.MspID)
    (hne₁ : ∀ o ∈ orgs₁, o.Peers ≠ [])
    (hperm₁ : (orgs₁.flatMap (fun o => o.Peers)).Perm peers₁)
    (hnd₂ : (orgs₂.map (fun o => o.MspID)).Nodup)
    (hmsp₂ : ∀ o ∈ orgs₂, ∀ p ∈ o.Peers, o.MspID = p.Spec.MspID)
    (hperm₂ : (orgs₂.flatMap (fun o => o.Peers)).Perm peers₂)
    (hpeers : peers₁.Perm peers₂) :
    ∀ o₁ ∈ orgs₁, ∃ o₂ ∈ orgs₂, o₂.MspID = o₁.MspID ∧ o₂.Peers.Perm o₁.Peers := by
  intro o₁ ho₁
  have h₁ := peers_of_organization hnd₁ hmsp₁ hperm₁ o₁ ho₁
  obtain ⟨p, hp⟩ := List.exists_mem_of_ne_nil _ (hne₁ o₁ ho₁)
  have hp₁ : p ∈ peers₁ := hperm₁.subset (List.mem_flatMap.2 ⟨o₁, ho₁, hp⟩)
  have hp₂ : p ∈ orgs₂.flatMap (fun o => o.Peers) := hperm₂.symm.subset (hpeers.subset hp₁)
  obtain ⟨o₂, ho₂, hpo₂⟩ := List.mem_flatMap.1 hp₂
  have hk : o₂.MspID = o₁.MspID := by
    rw [hmsp₂ o₂ ho₂ p hpo₂, hmsp₁ o₁ ho₁ p hp]
  refine ⟨o₂, ho₂, hk, ?_⟩
  have h₂ := peers_of_organization hnd₂ hmsp₂ hperm₂ o₂ ho₂
  rw [hk] at h₂
  exact h₂.trans ((hpeers.filter _).symm.trans h₁.symm)

/-- C11: peer grouping in `GetClusterPeers` does not depend on the order of the listing.
For two stores whose peer listings are rearrangements of one another, and any two visiting
orders of the map, one call succeeds exactly when the other does; and when both succeed the
returned peers are rearrangements of one another, every organization of one result has an
organization of the same `MspID` in the other result, and the two hold the same peers, each
as often, in some order. -/
theorem peer_grouping_order_independent (order₁ order₂ : RangeOrder) (clientSet : Clientset)
    (oclient₁ oclient₂ : OperatorClientset) (ns : String) (items₁ items₂ : List FabricPeer)
    (h₁ : oclient₁.FabricPeers ns = .ok items₁) (h₂ : oclient₂.FabricPeers ns = .ok items₂)
    (hperm : items₁.Perm items₂) :
    ((∃ r, GetClusterPeers order₁ clientSet oclient₁ ns = .ok r) ↔
      (∃ r, GetClusterPeers order₂ clientSet oclient₂ ns = .ok r)) ∧
    (∀ (orgs₁ orgs₂ : List Organization) (peers₁ peers₂ : List ClusterPeer),
      GetClusterPeers order₁ clientSet oclient₁ ns = .ok (orgs₁, peers₁) →
      GetClusterPeers order₂ clientSet oclient₂ ns = .ok (orgs₂, peers₂) →
      peers₁.Perm peers₂ ∧
      (∀ o₁ ∈ orgs₁, ∃ o₂ ∈ orgs₂, o₂.MspID = o₁.MspID ∧ o₂.Peers.Perm o₁.Peers) ∧
      (∀ o₂ ∈ orgs₂, ∃ o₁ ∈ orgs₁, o₁.MspID = o₂.MspID ∧ o₁.Peers.Perm o₂.Peers)) := by
  have hsucc : ∀ (orderA orderB : RangeOrder) (oclientA oclientB : OperatorClientset)
      (itemsA itemsB : List FabricPeer), oclientA.FabricPeers ns = .ok itemsA →
      oclientB.FabricPeers ns = .ok itemsB → itemsA.Perm itemsB →
      (∃ r, GetClusterPeers orderA clientSet oclientA ns = .ok r) →
      (∃ r, GetClusterPeers orderB clientSet oclientB ns = .ok r) := by
    rintro orderA orderB oclientA oclientB itemsA itemsB hA hB hAB ⟨⟨orgs, peers⟩, hr⟩
    obtain ⟨items, hitems, hmap, -⟩ :=
      GetClusterPeers_ok orderA clientSet oclientA ns orgs peers hr
    rw [hA] at hitems
    cases hitems
    obtain ⟨zs, hzs, -⟩ :=
      forall₂_ok_perm (MapClusterPeer clientSet) hAB.symm
        ((mapPeerItems_ok_iff clientSet itemsA peers).1 hmap)
    exact ⟨_, GetClusterPeers_of_mapped orderB clientSet oclientB ns itemsB zs hB
      ((mapPeerItems_ok_iff clientSet itemsB zs).2 hzs)⟩
  refine ⟨⟨hsucc order₁ order₂ oclient₁ oclient₂ items₁ items₂ h₁ h₂ hperm,
    hsucc order₂ order₁ oclient₂ oclient₁ items₂ items₁ h₂ h₁ hperm.symm⟩, ?_⟩
  intro orgs₁ orgs₂ peers₁ peers₂ hr₁ hr₂
  obtain ⟨itemsA, hA, hmapA, -⟩ :=
    GetClusterPeers_ok order₁ clientSet oclient₁ ns orgs₁ peers₁ hr₁
  obtain ⟨itemsB, hB, hmapB, -⟩ :=
    GetClusterPeers_ok order₂ clientSet oclient₂ ns orgs₂ peers₂ hr₂
  rw [h₁] at hA
  rw [h₂] at hB
  cases hA
  cases hB
  have hpeers : peers₁.Perm peers₂ := by
    obtain ⟨zs, hzs, hzp⟩ :=
      forall₂_ok_perm (MapClusterPeer clientSet) hperm
        ((mapPeerItems_ok_iff clientSet items₂ peers₂).1 hmapB)
    rw [forall₂_ok_unique (MapClusterPeer clientSet)
      ((mapPeerItems_ok_iff clientSet items₁ peers₁).1 hmapA) hzs]
    exact hzp
  obtain ⟨hnd₁, hmsp₁, hne₁, hfl₁⟩ :=
    GetClusterPeers_organizations order₁ clientSet oclient₁ ns orgs₁ peers₁ hr₁
  obtain ⟨hnd₂, hmsp₂, hne₂, hfl₂⟩ :=
    GetClusterPeers_organizations order₂ clientSet oclient₂ ns orgs₂ peers₂ hr₂
  exact ⟨hpeers,
    organizations_correspond hnd₁ hmsp₁ hne₁ hfl₁ hnd₂ hmsp₂ hfl₂ hpeers,
    organizations_correspond hnd₂ hmsp₂ hne₂ hfl₂ hnd₁ hmsp₁ hfl₁ hpeers.symm⟩

/-- C11 at the store `peerStore`, visited last to first, and at the store listing the same
peers in another order, visited first to last. -/
theorem peer_grouping_order_independent_witness :
    GetClusterPeers lastFirst withIP peerStore "" =
      .ok (peerOrganizations, [clusterPeer0, clusterPeer2, clusterPeer1]) ∧
    GetClusterPeers firstLast withIP peerStoreShuffled "" =
      .ok (peerOrganizationsShuffled, [clusterPeer1, clusterPeer0, clusterPeer2]) ∧
    (∀ o₁ ∈ peerOrganizations, ∃ o₂ ∈ peerOrganizationsShuffled,
      o₂.MspID = o₁.MspID ∧ o₂.Peers.Perm o₁.Peers) ∧
    (∀ o₂ ∈ peerOrganizationsShuffled, ∃ o₁ ∈ peerOrganizations,
      o₁.MspID = o₂.MspID ∧ o₁.Peers.Perm o₂.Peers) :=
  ⟨rfl, rfl,
   ((peer_grouping_order_independent lastFirst firstLast withIP peerStore peerStoreShuffled ""
      [peer0, peer2, peer1] [peer1, peer0, peer2] rfl rfl
      (List.perm_append_comm : ([peer0, peer2] ++ [peer1]).Perm ([peer1] ++ [peer0, peer2]))).2
      peerOrganizations peerOrganizationsShuffled [clusterPeer0, clusterPeer2, clusterPeer1]
      [clusterPeer1, clusterPeer0, clusterPeer2] rfl rfl).2.1,
   ((peer_grouping_order_independent lastFirst firstLast withIP peerStore peerStoreShuffled ""
      [peer0, peer2, peer1] [peer1, peer0, peer2] rfl rfl
      (List.perm_append_comm : ([peer0, peer2] ++ [peer1]).Perm ([peer1] ++ [peer0, peer2]))).2
      peerOrganizations peerOrganizationsShuffled [clusterPeer0, clusterPeer2, clusterPeer1]
      [clusterPeer1, clusterPeer0, clusterPeer2] rfl rfl).2.2⟩

/-! ## Lookup by full name (C12) -/

theorem forall₂_ok_of_forall {α β : Type} (f : α → Except String β) (items : List α)
    (h : ∀ x ∈ items, ∃ y, f x = .ok y) :
    ∃ ys, List.Forall₂ (fun x y => f x = .ok y) items ys := by
  induction items with
  | nil => exact ⟨[], List.Forall₂.nil⟩
  | cons x rest ih =>
    obtain ⟨y, hy⟩ := h x (List.mem_cons_self _ _)
    obtain ⟨ys, hys⟩ := ih (fun z hz => h z (List.mem_cons_of_mem _ hz))
    exact ⟨y :: ys, List.Forall₂.cons hy hys⟩

theorem find_mapped {α β : Type} (f : α → Except String β) (name : β → String)
    (fullName : α → String) (hname : ∀ x y, f x = .ok y → name y = fullName x)
    {items : List α} {ys : List β}
    (h : List.Forall₂ (fun x y => f x = .ok y) items ys) (key : String) :
    (ys.find? (fun y => name y == key)).map Except.ok =
      (items.find? (fun x => fullName x == key)).map f := by
  induction h with
  | nil => rfl
  | @cons x y xs ys' hxy _ ih =>
    simp only [List.find?_cons, hname x y hxy]
    cases hk : fullName x == key with
    | true => simp [hxy]
    | false => simpa using ih

theorem chars_split_unique {a a' b b' : List Char} (h : a ++ '.' :: b = a' ++ '.' :: b')
    (hb : '.' ∉ b) (hb' : '.' ∉ b') : a = a' ∧ b = b' := by
  rcases List.append_eq_append_iff.1 h with ⟨c, hc, hd⟩ | ⟨c, hc, hd⟩
  · cases c with
    | nil =>
      simp only [List.nil_append, List.cons.injEq, true_and] at hd
      exact ⟨by simpa using hc.symm, hd⟩
    | cons x c =>
      simp only [List.cons_append, List.cons.injEq] at hd
      exact absurd (hd.2 ▸ List.mem_append_right c (List.mem_cons_self _ _)) hb
  · cases c with
    | nil =>
      simp only [List.nil_append, List.cons.injEq, true_and] at hd
      exact ⟨by simpa using hc, hd.symm⟩
    | cons x c =>
      simp only [List.cons_append, List.cons.injEq] at hd
      exact absurd (hd.2 ▸ List.mem_append_right c (List.mem_cons_self _ _)) hb'

theorem fullName_unique {x x' ns ns' : String} (h : x ++ "." ++ ns = x' ++ "." ++ ns')
    (hns : '.' ∉ ns.data) (hns' : '.' ∉ ns'.data) : x = x' ∧ ns = ns' := by
  have hd := congrArg String.data h
  simp only [String.data_append, List.append_assoc] at hd
  obtain ⟨h1, h2⟩ := chars_split_unique hd hns hns'
  exact ⟨String.ext h1, String.ext h2⟩

theorem find_fullName_eq {α : Type} (name ns : α → String) (items : List α) (x n : String)
    (hn : '.' ∉ n.data) (hitems : ∀ r ∈ items, '.' ∉ (ns r).data) :
    items.find? (fun r => name r ++ "." ++ ns r == x ++ "." ++ n) =
      items.find? (fun r => name r == x && ns r == n) := by
  induction items with
  | nil => rfl
  | cons r rest ih =>
    have hpred : (name r ++ "." ++ ns r == x ++ "." ++ n) = (name r == x && ns r == n) := by
      by_cases h : name r ++ "." ++ ns r = x ++ "." ++ n
      · obtain ⟨h1, h2⟩ := fullName_unique h (hitems r (List.mem_cons_self _ _)) hn
        simp [h1, h2]
      · have hne : ¬ (name r = x ∧ ns r = n) := by
          rintro ⟨h1, h2⟩
          exact h (by rw [h1, h2])
        rw [Bool.eq_iff_iff]
        simp only [beq_iff_eq, h, Bool.and_eq_true, hne]
    simp only [List.find?_cons, hpred, ih (fun z hz => hitems z (List.mem_cons_of_mem _ hz))]

theorem MapClusterCA_name (clientSet : Clientset) (certAuth : FabricCA) (c : ClusterCA)
    (h : MapClusterCA clientSet certAuth = .ok c) :
    c.Name = certAuth.Name ++ "." ++ certAuth.Namespace ∧ c.Object = certAuth ∧
      c.Item = certAuth ∧ c.Spec = certAuth.Spec ∧ c.Status = certAuth.Status := by
  unfold MapClusterCA at h
  cases hu : GetCAPublicURL clientSet certAuth with
  | error err => simp [hu] at h
  | ok url =>
    simp only [hu, Except.ok.injEq] at h
    subst h
    exact ⟨rfl, rfl, rfl, rfl, rfl⟩

theorem MapClusterPeer_name (clientSet : Clientset) (peer : FabricPeer) (c : ClusterPeer)
    (h : MapClusterPeer clientSet peer = .ok c) :
    c.Name = peer.Name ++ "." ++ peer.Namespace ∧ c.Object = peer := by
  unfold MapClusterPeer at h
  cases hu : GetPeerPublicURL clientSet peer with
  | error err => simp [hu] at h
  | ok url =>
    simp only [hu, Except.ok.injEq] at h
    subst h
    exact ⟨rfl, rfl⟩

theorem listedOrdererNode_name (clientSet : Clientset) (ordNode : FabricOrdererNode)
    (c : ClusterOrdererNode) (h : listedOrdererNode clientSet ordNode = .ok c) :
    c.Name = ordNode.Name ++ "." ++ ordNode.Namespace ∧ c.Item = ordNode := by
  unfold listedOrdererNode at h
  cases hu : GetOrdererPublicURL clientSet ordNode with
  | error err => simp [hu] at h
  | ok url =>
    cases ha : GetAdminOrdererPublicURL clientSet ordNode with
    | error err => simp [hu, ha] at h
    | ok admin =>
      simp only [hu, ha, Except.ok.injEq] at h
      subst h
      exact ⟨rfl, rfl⟩

theorem lookup_of_find {α β : Type} (f : α → Except String β) (name : β → String)
    (fullName : α → String) (hname : ∀ x y, f x = .ok y → name y = fullName x)
    {items : List α} {ys : List β}
    (h : List.Forall₂ (fun x y => f x = .ok y) items ys) (key notFound : String) :
    (∀ y, ys.find? (fun y => name y == key) = some y →
      lookupResult (items.find? (fun x => fullName x == key)) f notFound = .ok y) ∧
    (ys.find? (fun y => name y == key) = none →
      lookupResult (items.find? (fun x => fullName x == key)) f notFound =
        .error notFound) := by
  have hfind := find_mapped f name fullName hname h key
  constructor
  · intro y hy
    cases hx : items.find? (fun x => fullName x == key) with
    | none => simp [hy, hx] at hfind
    | some x =>
      simp only [hy, hx, Option.map_some', Option.some.injEq] at hfind
      simp only [lookupResult, hfind]
  · intro hy
    cases hx : items.find? (fun x => fullName x == key) with
    | none => rfl
    | some x => simp [hy, hx] at hfind

theorem GetCertAuthByFullName_eq (clientSet : Clientset) (oclient : OperatorClientset)
    (items : List FabricCA) (key : String) (hitems : oclient.FabricCAs "" = .ok items)
    (hmap : ∀ r ∈ items, ∃ c, MapClusterCA clientSet r = .ok c) :
    GetCertAuthByFullName clientSet oclient key =
      lookupResult (items.find? (fun r => r.Name ++ "." ++ r.Namespace == key))
        (MapClusterCA clientSet) ("CA with name=" ++ key ++ " not found") := by
  obtain ⟨ys, hys⟩ := forall₂_ok_of_forall _ items hmap
  have hlist : GetClusterCAs clientSet oclient "" = .ok ys := by
    simp only [GetClusterCAs, hitems]
    exact (appendEach_ok_iff _ items [] ys).2 ⟨ys, rfl, hys⟩
  simp only [GetCertAuthByFullName, hlist]
  obtain ⟨hsome, hnone⟩ := lookup_of_find (MapClusterCA clientSet) (fun c => c.Name)
    (fun r => r.Name ++ "." ++ r.Namespace)
    (fun x y hxy => (MapClusterCA_name clientSet x y hxy).1) hys key
    ("CA with name=" ++ key ++ " not found")
  cases hy : ys.find? (fun c => c.Name == key) with
  | none => rw [hnone hy]
  | some y => rw [hsome y hy]

theorem GetPeerByFullName_eq (rangeOrder : RangeOrder) (clientSet : Clientset)
    (oclient : OperatorClientset) (items : List FabricPeer) (key : String)
    (hitems : oclient.FabricPeers "" = .ok items)
    (hmap : ∀ r ∈ items, ∃ c, MapClusterPeer clientSet r = .ok c) :
    GetPeerByFullName rangeOrder clientSet oclient key =
      lookupResult (items.find? (fun r => r.Name ++ "." ++ r.Namespace == key))
        (MapClusterPeer clientSet) ("Peer with name=" ++ key ++ " not found") := by
  obtain ⟨ys, hys⟩ := forall₂_ok_of_forall _ items hmap
  have hlist := GetClusterPeers_of_mapped rangeOrder clientSet oclient "" items ys hitems
    ((mapPeerItems_ok_iff clientSet items ys).2 hys)
  simp only [GetPeerByFullName, hlist]
  obtain ⟨hsome, hnone⟩ := lookup_of_find (MapClusterPeer clientSet) (fun c => c.Name)
    (fun r => r.Name ++ "." ++ r.Namespace)
    (fun x y hxy => (MapClusterPeer_name clientSet x y hxy).1) hys key
    ("Peer with name=" ++ key ++ " not found")
  cases hy : ys.find? (fun c => c.Name == key) with
  | none => rw [hnone hy]
  | some y => rw [hsome y hy]

theorem GetOrdererNodeByFullName_eq (clientSet : Clientset) (oclient : OperatorClientset)
    (items : List FabricOrdererNode) (key : String)
    (hitems : oclient.FabricOrdererNodes "" "" = .ok items)
    (hmap : ∀ r ∈ items, ∃ c, listedOrdererNode clientSet r = .ok c) :
    GetOrdererNodeByFullName clientSet oclient key =
      lookupResult (items.find? (fun r => r.Name ++ "." ++ r.Namespace == key))
        (listedOrdererNode clientSet) ("Orderer Node with name=" ++ key ++ " not found") := by
  obtain ⟨ys, hys⟩ := forall₂_ok_of_forall _ items hmap
  have hlist : GetClusterOrdererNodes clientSet oclient "" = .ok ys := by
    simp only [GetClusterOrdererNodes, hitems]
    exact (appendEach_ok_iff _ items [] ys).2 ⟨ys, rfl, hys⟩
  simp only [GetOrdererNodeByFullName, hlist]
  obtain ⟨hsome, hnone⟩ := lookup_of_find (listedOrdererNode clientSet) (fun c => c.Name)
    (fun r => r.Name ++ "." ++ r.Namespace)
    (fun x y hxy => (listedOrdererNode_name clientSet x y hxy).1) hys key
    ("Orderer Node with name=" ++ key ++ " not found")
  cases hy : ys.find? (fun c => c.Name == key) with
  | none => rw [hnone hy]
  | some y => rw [hsome y hy]

/-- C12, as stated, fails. The store `storeOf [caBare] [] [] []` lists the certificate
authority `ca1` of namespace `org1`, which has no ingress host; with a failing public-IP
discovery `GetCertAuthByFullName` called with `ca1.org1` returns the discovery error, neither
the record nor a not-found error. And a listing may hold two records of one full name: with
`a` of namespace `b.c` listed before `a.b` of namespace `c`, the call with `a.b.c` returns
the former, whose name is not `a.b`. -/
theorem lookup_by_full_name_fails :
    (storeOf [caBare] [] [] []).FabricCAs "" = .ok [caBare] ∧
    caBare.Name = "ca1" ∧ caBare.Namespace = "org1" ∧
    GetCertAuthByFullName noIP (storeOf [caBare] [] [] []) ("ca1" ++ "." ++ "org1") =
      .error "no public IP" ∧
    (storeOf [caDotted, caDottedName] [] [] []).FabricCAs "" = .ok [caDotted, caDottedName] ∧
    caDottedName.Name = "a.b" ∧ caDottedName.Namespace = "c" ∧
    GetCertAuthByFullName noIP (storeOf [caDotted, caDottedName] [] [] [])
      ("a.b" ++ "." ++ "c") = MapClusterCA noIP caDotted ∧
    (MapClusterCA noIP caDotted).map (fun c => c.Object.Name) = .ok "a" := by
  refine ⟨rfl, rfl, rfl, by decide, rfl, rfl, rfl, by decide, by decide⟩

/-- C12, amended: for every listing of CA records all of which map without error, and every
name `x` and namespace `ns`, `GetCertAuthByFullName` called with `x.ns` returns the mapping
of the first listed record whose full name `name.namespace` is `x.ns`, and fails with the
not-found error `CA with name=x.ns not found` when no listed record has that full name. When
neither `ns` nor the namespace of a listed record contains a dot, that record is the first
listed record whose name is `x` and whose namespace is `ns`, and the not-found error is
returned exactly when the listing holds no such record. The same holds for
`GetPeerByFullName` and `GetOrdererNodeByFullName` over their listings, with the errors
`Peer with name=x.ns not found` and `Orderer Node with name=x.ns not found`. -/
theorem lookup_by_full_name :
    (∀ (clientSet : Clientset) (oclient : OperatorClientset) (items : List FabricCA)
        (x ns : String), oclient.FabricCAs "" = .ok items →
        (∀ r ∈ items, ∃ c, MapClusterCA clientSet r = .ok c) →
        GetCertAuthByFullName clientSet oclient (x ++ "." ++ ns) =
          lookupResult (items.find? (fun r => r.Name ++ "." ++ r.Namespace == x ++ "." ++ ns))
            (MapClusterCA clientSet) ("CA with name=" ++ (x ++ "." ++ ns) ++ " not found") ∧
        ('.' ∉ ns.data → (∀ r ∈ items, '.' ∉ r.Namespace.data) →
          GetCertAuthByFullName clientSet oclient (x ++ "." ++ ns) =
            lookupResult (items.find? (fun r => r.Name == x && r.Namespace == ns))
              (MapClusterCA clientSet)
              ("CA with name=" ++ (x ++ "." ++ ns) ++ " not found"))) ∧
    (∀ (rangeOrder : RangeOrder) (clientSet : Clientset) (oclient : OperatorClientset)
        (items : List FabricPeer) (x ns : String), oclient.FabricPeers "" = .ok items →
        (∀ r ∈ items, ∃ c, MapClusterPeer clientSet r = .ok c) →
        GetPeerByFullName rangeOrder clientSet oclient (x ++ "." ++ ns) =
          lookupResult (items.find? (fun r => r.Name ++ "." ++ r.Namespace == x ++ "." ++ ns))
            (MapClusterPeer clientSet)
            ("Peer with name=" ++ (x ++ "." ++ ns) ++ " not found") ∧
        ('.' ∉ ns.data → (∀ r ∈ items, '.' ∉ r.Namespace.data) →
          GetPeerByFullName rangeOrder clientSet oclient (x ++ "." ++ ns) =
            lookupResult (items.find? (fun r => r.Name == x && r.Namespace == ns))
              (MapClusterPeer clientSet)
              ("Peer with name=" ++ (x ++ "." ++ ns) ++ " not found"))) ∧
    (∀ (clientSet : Clientset) (oclient : OperatorClientset)
        (items : List FabricOrdererNode) (x ns : String),
        oclient.FabricOrdererNodes "" "" = .ok items →
        (∀ r ∈ items, ∃ c, listedOrdererNode clientSet r = .ok c) →
        GetOrdererNodeByFullName clientSet oclient (x ++ "." ++ ns) =
          lookupResult (items.find? (fun r => r.Name ++ "." ++ r.Namespace == x ++ "." ++ ns))
            (listedOrdererNode clientSet)
            ("Orderer Node with name=" ++ (x ++ "." ++ ns) ++ " not found") ∧
        ('.' ∉ ns.data → (∀ r ∈ items, '.' ∉ r.Namespace.data) →
          GetOrdererNodeByFullName clientSet oclient (x ++ "." ++ ns) =
            lookupResult (items.find? (fun r => r.Name == x && r.Namespace == ns))
              (listedOrdererNode clientSet)
              ("Orderer Node with name=" ++ (x ++ "." ++ ns) ++ " not found"))) := by
  refine ⟨?_, ?_, ?_⟩
  · intro clientSet oclient items x ns hitems hmap
    have h := GetCertAuthByFullName_eq clientSet oclient items (x ++ "." ++ ns) hitems hmap
    refine ⟨h, fun hns hall => ?_⟩
    rw [h, find_fullName_eq (fun r : FabricCA => r.Name) (fun r => r.Namespace) items x ns
      hns hall]
  · intro rangeOrder clientSet oclient items x ns hitems hmap
    have h := GetPeerByFullName_eq rangeOrder clientSet oclient items (x ++ "." ++ ns)
      hitems hmap
    refine ⟨h, fun hns hall => ?_⟩
    rw [h, find_fullName_eq (fun r : FabricPeer => r.Name) (fun r => r.Namespace) items x ns
      hns hall]
  · intro clientSet oclient items x ns hitems hmap
    have h := GetOrdererNodeByFullName_eq clientSet oclient items (x ++ "." ++ ns) hitems hmap
    refine ⟨h, fun hns hall => ?_⟩
    rw [h, find_fullName_eq (fun r : FabricOrdererNode => r.Name) (fun r => r.Namespace)
      items x ns hns hall]

/-- C12, amended, at the store `fullStore` with a discovery that answers: a certificate
authority and an orderer node that are listed, and a peer that is not. -/
theorem lookup_by_full_name_witness :
    GetCertAuthByFullName withIP fullStore "ca1.org1" = MapClusterCA withIP caBare ∧
    GetPeerByFullName lastFirst withIP fullStore "peer9.org1" =
      .error "Peer with name=peer9.org1 not found" ∧
    GetOrdererNodeByFullName withIP fullStore "ord5.ordns" =
      listedOrdererNode withIP ordOwned :=
  ⟨((lookup_by_full_name.1 withIP fullStore [ca0, caBare] "ca1" "org1" rfl
      (fun r hr => by
        rcases List.mem_cons.1 hr with rfl | hr
        · exact ⟨_, rfl⟩
        · rw [List.mem_singleton.1 hr]; exact ⟨_, rfl⟩)).2 (by decide) (by decide)).trans
      (by decide),
   ((lookup_by_full_name.2.1 lastFirst withIP fullStore [peer0, peer2, peer1] "peer9" "org1"
      rfl
      (fun r hr => by
        rcases List.mem_cons.1 hr with rfl | hr
        · exact ⟨_, rfl⟩
        · rcases List.mem_cons.1 hr with rfl | hr
          · exact ⟨_, rfl⟩
          · rw [List.mem_singleton.1 hr]; exact ⟨_, rfl⟩)).2 (by decide) (by decide)).trans
      (by decide),
   ((lookup_by_full_name.2.2 withIP fullStore [ord0, ordOwned] "ord5" "ordns" rfl
      (fun r hr => by
        rcases List.mem_cons.1 hr with rfl | hr
        · exact ⟨_, rfl⟩
        · rw [List.mem_singleton.1 hr]; exact ⟨_, rfl⟩)).2 (by decide) (by decide)).trans
      (by decide)⟩

/-! ## The structure of the result of `GetClusterOrderers` (C13 to C17) -/

theorem implicitOrderingServices_ok_iff (clientSet : Clientset)
    (items : List FabricOrdererNode) (implicit : List ClusterOrderingService) :
    implicitOrderingServices clientSet items = .ok implicit ↔
      (items = [] ∧ implicit = []) ∨
        ∃ first rest nodes, items = first :: rest ∧
          List.Forall₂ (fun n c => implicitOrdererNode clientSet n = .ok c) items nodes ∧
          implicit =
            [{ Name := first.FullName, MSPID := first.Spec.MspID, Orderers := nodes }] := by
  cases items with
  | nil =>
    simp only [implicitOrderingServices, Except.ok.injEq, true_and, reduceCtorEq, false_and,
      exists_false, or_false]
    exact eq_comm
  | cons first rest =>
    simp only [implicitOrderingServices, reduceCtorEq, false_and, false_or, List.cons.injEq]
    cases hi : appendEach (implicitOrdererNode clientSet) (first :: rest) [] with
    | error err =>
      simp only [reduceCtorEq, false_iff, not_exists, not_and]
      rintro first' rest' nodes ⟨rfl, rfl⟩ hall
      have := (appendEach_ok_iff _ (first :: rest) [] nodes).2 ⟨nodes, rfl, hall⟩
      rw [hi] at this
      cases this
    | ok nodes =>
      obtain ⟨ys, hys, hall⟩ := (appendEach_ok_iff _ (first :: rest) [] nodes).1 hi
      simp only [List.nil_append] at hys
      subst hys
      simp only [Except.ok.injEq]
      constructor
      · intro h
        exact ⟨first, rest, nodes, ⟨rfl, rfl⟩, hall, h.symm⟩
      · rintro ⟨first', rest', nodes', ⟨rfl, rfl⟩, hall', rfl⟩
        rw [forall₂_ok_unique _ hall' hall]

theorem ordererOrganizations_eq (orderers : List ClusterOrderingService) :
    ordererOrganizations orderers =
      (orderers.map (fun ord =>
        { Type_ := OrdererType, MspID := ord.MSPID, OrdererNodes := [], Peers := [] }),
       orderers) := by
  unfold ordererOrganizations
  split
  · rename_i h
    rw [List.length_eq_zero.1 h]
    rfl
  · rfl

theorem GetClusterOrderers_ok_iff (clientSet : Clientset) (oclient : OperatorClientset)
    (ns : String) (items : List FabricOrdererNode) (svcs : List FabricOrderingService)
    (hnodes : oclient.FabricOrdererNodes ns "" = .ok items)
    (hsvcs : oclient.FabricOrderingServices ns = .ok svcs)
    (orgs : List Organization) (orderers : List ClusterOrderingService) :
    GetClusterOrderers clientSet oclient ns = .ok (orgs, orderers) ↔
      ∃ implicit explicit,
        implicitOrderingServices clientSet items = .ok implicit ∧
        List.Forall₂ (fun svc e => explicitOrderingService oclient ns svc = .ok e)
          svcs explicit ∧
        orderers = implicit ++ explicit ∧
        orgs = orderers.map (fun ord =>
          { Type_ := OrdererType, MspID := ord.MSPID, OrdererNodes := [], Peers := [] }) := by
  unfold GetClusterOrderers
  simp only [hnodes, hsvcs]
  cases hi : implicitOrderingServices clientSet items with
  | error err => simp
  | ok implicit =>
    cases ha : appendEach (explicitOrderingService oclient ns) svcs implicit with
    | error err =>
      simp only [ha, reduceCtorEq, false_iff, not_exists, not_and, Except.ok.injEq]
      rintro implicit' explicit rfl hall hord
      have := (appendEach_ok_iff _ svcs implicit orderers).2 ⟨explicit, hord, hall⟩
      rw [ha] at this
      cases this
    | ok out =>
      obtain ⟨ys, hout, hall⟩ := (appendEach_ok_iff _ svcs implicit out).1 ha
      simp only [ha, Except.ok.injEq, ordererOrganizations_eq, Prod.mk.injEq]
      constructor
      · rintro ⟨rfl, rfl⟩
        exact ⟨implicit, ys, rfl, hall, hout, rfl⟩
      · rintro ⟨implicit', explicit, rfl, hex, hord, horgs⟩
        rw [forall₂_ok_unique _ hex hall, ← hout] at hord
        subst hord
        exact ⟨horgs.symm, rfl⟩

theorem implicitOrdererNode_ok_iff (clientSet : Clientset) (ordNode : FabricOrdererNode)
    (c : ClusterOrdererNode) :
    implicitOrdererNode clientSet ordNode = .ok c ↔
      ∃ publicURL adminURL, GetOrdererPublicURL clientSet ordNode = .ok publicURL ∧
        GetAdminOrdererPublicURL clientSet ordNode = .ok adminURL ∧
        c = { AdminURL := adminURL, Name := ordNode.FullName,
              ObjectMeta := ordNode.ObjectMeta, Spec := ordNode.Spec,
              Status := ordNode.Status, PublicURL := publicURL,
              PrivateURL := GetOrdererPrivateURL ordNode } := by
  unfold implicitOrdererNode
  cases hu : GetOrdererPublicURL clientSet ordNode with
  | error err => simp
  | ok url =>
    cases ha : GetAdminOrdererPublicURL clientSet ordNode with
    | error err => simp
    | ok admin =>
      simp only [Except.ok.injEq, exists_and_left, exists_eq_left']
      exact eq_comm

theorem explicitOrderingService_ok_iff (oclient : OperatorClientset) (ns : String)
    (ordService : FabricOrderingService) (e : ClusterOrderingService) :
    explicitOrderingService oclient ns ordService = .ok e ↔
      ∃ res, oclient.FabricOrdererNodes ns ("release=" ++ ordService.ObjectMeta.Name) =
          .ok res ∧
        e = { Name := ordService.FullName, Object := ordService,
              MSPID := ordService.Spec.MspID, Spec := ordService.Spec,
              Status := ordService.Status,
              Orderers := res.map (fun ordNode =>
                { Name := ordNode.FullName, Spec := ordNode.Spec,
                  Status := ordNode.Status }) } := by
  unfold explicitOrderingService
  cases hl : oclient.FabricOrdererNodes ns ("release=" ++ ordService.ObjectMeta.Name) with
  | error err => simp
  | ok res =>
    simp only [Except.ok.injEq, exists_eq_left']
    exact eq_comm

theorem GetClusterOrderers_organizations (clientSet : Clientset)
    (oclient : OperatorClientset) (ns : String) (orgs : List Organization)
    (orderers : List ClusterOrderingService)
    (h : GetClusterOrderers clientSet oclient ns = .ok (orgs, orderers)) :
    orgs = orderers.map (fun ord =>
      { Type_ := OrdererType, MspID := ord.MSPID, OrdererNodes := [], Peers := [] }) := by
  cases hnodes : oclient.FabricOrdererNodes ns "" with
  | error err => simp [GetClusterOrderers, hnodes] at h
  | ok items =>
    cases hsvcs : oclient.FabricOrderingServices ns with
    | error err => simp [GetClusterOrderers, hnodes, hsvcs] at h
    | ok svcs =>
      obtain ⟨-, -, -, -, -, horgs⟩ :=
        (GetClusterOrderers_ok_iff clientSet oclient ns items svcs hnodes hsvcs orgs
          orderers).1 h
      exact horgs

theorem forall₂_of_ok {α β : Type} {f : α → Except String β} {P : α → β → Prop}
    (hP : ∀ x y, f x = .ok y → P x y) {items : List α} {ys : List β}
    (h : List.Forall₂ (fun x y => f x = .ok y) items ys) : List.Forall₂ P items ys :=
  h.imp (fun {x y} hxy => hP x y hxy)

/-! ## The implicit ordering service (C13) -/

/-- C13: for every store that lists at least one orderer node, lists its ordering services
and answers the member query of each of them, and every cluster on which the public and the
admin address of every listed node resolve, `GetClusterOrderers` succeeds and its first
ordering service is the synthesized one: its `Name` is the full name of the first listed
node, its `MSPID` that node's `Spec.MspID`, and its `Orderers` are the listed nodes, one for
each, in listing order, each with the full name, metadata, spec and status of its node. The
services after it are those of the listed ordering-service records. Whether a listed node
has an owning service plays no part. -/
theorem implicit_service_first (clientSet : Clientset) (oclient : OperatorClientset)
    (ns : String) (first : FabricOrdererNode) (rest : List FabricOrdererNode)
    (svcs : List FabricOrderingService)
    (hnodes : oclient.FabricOrdererNodes ns "" = .ok (first :: rest))
    (hsvcs : oclient.FabricOrderingServices ns = .ok svcs)
    (hsel : ∀ svc ∈ svcs, ∃ res,
      oclient.FabricOrdererNodes ns ("release=" ++ svc.ObjectMeta.Name) = .ok res)
    (hres : ∀ n ∈ first :: rest, ∃ publicURL adminURL,
      GetOrdererPublicURL clientSet n = .ok publicURL ∧
        GetAdminOrdererPublicURL clientSet n = .ok adminURL) :
    ∃ orgs implicit explicit,
      GetClusterOrderers clientSet oclient ns = .ok (orgs, implicit :: explicit) ∧
      implicit.Name = first.FullName ∧ implicit.MSPID = first.Spec.MspID ∧
      List.Forall₂ (fun n c => c.Name = n.FullName ∧ c.ObjectMeta = n.ObjectMeta ∧
        c.Spec = n.Spec ∧ c.Status = n.Status) (first :: rest) implicit.Orderers ∧
      List.Forall₂ (fun svc e => e.Object = svc) svcs explicit := by
  obtain ⟨nodes, hnodesOk⟩ := forall₂_ok_of_forall (implicitOrdererNode clientSet)
    (first :: rest) (fun n hn => by
      obtain ⟨publicURL, adminURL, hp, ha⟩ := hres n hn
      exact ⟨_, (implicitOrdererNode_ok_iff clientSet n _).2 ⟨publicURL, adminURL, hp, ha, rfl⟩⟩)
  obtain ⟨explicit, hexplicit⟩ := forall₂_ok_of_forall (explicitOrderingService oclient ns)
    svcs (fun svc hsvc => by
      obtain ⟨res, hr⟩ := hsel svc hsvc
      exact ⟨_, (explicitOrderingService_ok_iff oclient ns svc _).2 ⟨res, hr, rfl⟩⟩)
  refine ⟨_, { Name := first.FullName, MSPID := first.Spec.MspID, Orderers := nodes },
    explicit,
    (GetClusterOrderers_ok_iff clientSet oclient ns (first :: rest) svcs hnodes hsvcs _ _).2
      ⟨[{ Name := first.FullName, MSPID := first.Spec.MspID, Orderers := nodes }], explicit,
        (implicitOrderingServices_ok_iff clientSet _ _).2
          (Or.inr ⟨first, rest, nodes, rfl, hnodesOk, rfl⟩),
        hexplicit, rfl, rfl⟩,
    rfl, rfl, ?_, ?_⟩
  · refine forall₂_of_ok (fun n c hc => ?_) hnodesOk
    obtain ⟨publicURL, adminURL, -, -, rfl⟩ := (implicitOrdererNode_ok_iff clientSet n c).1 hc
    exact ⟨rfl, rfl, rfl, rfl⟩
  · refine forall₂_of_ok (fun svc e he => ?_) hexplicit
    obtain ⟨res, -, rfl⟩ := (explicitOrderingService_ok_iff oclient ns svc e).1 he
    rfl

/-- C13 at the store `fullStore`, whose orderer nodes are `ord0` and the owned `ordOwned`. -/
theorem implicit_service_first_witness :
    ∃ orgs implicit explicit,
      GetClusterOrderers withIP fullStore "" = .ok (orgs, implicit :: explicit) ∧
      implicit.Name = "ord0.ordns" ∧ implicit.MSPID = "OrdererMSP" ∧
      List.Forall₂ (fun n c => c.Name = n.FullName ∧ c.ObjectMeta = n.ObjectMeta ∧
        c.Spec = n.Spec ∧ c.Status = n.Status) [ord0, ordOwned] implicit.Orderers ∧
      List.Forall₂ (fun svc e => e.Object = svc) [ordService] explicit :=
  implicit_service_first withIP fullStore "" ord0 [ordOwned] [ordService] rfl rfl
    (fun svc hsvc => by
      rw [List.mem_singleton.1 hsvc]
      exact ⟨[ordOwned], by decide⟩)
    (fun n hn => by
      rcases List.mem_cons.1 hn with rfl | hn
      · exact ⟨_, _, rfl, rfl⟩
      · rw [List.mem_singleton.1 hn]; exact ⟨_, _, rfl, rfl⟩)

/-! ## No orderer at all (C14) -/

/-- C14: when the store lists no orderer node and no ordering service in the scope,
`GetClusterOrderers` returns no organization, no ordering service and no error. -/
theorem no_orderer_no_result (clientSet : Clientset) (oclient : OperatorClientset)
    (ns : String) (hnodes : oclient.FabricOrdererNodes ns "" = .ok [])
    (hsvcs : oclient.FabricOrderingServices ns = .ok []) :
    GetClusterOrderers clientSet oclient ns = .ok ([], []) := by
  simp only [GetClusterOrderers, hnodes, hsvcs, implicitOrderingServices, appendEach,
    List.foldlM_nil, pure, Except.pure]
  rfl

/-- C14 at the store of the peers, which holds no orderer node and no ordering service, with
a failing discovery. -/
theorem no_orderer_no_result_witness :
    peerStore.FabricOrdererNodes "" "" = .ok [] ∧
    peerStore.FabricOrderingServices "" = .ok [] ∧
    GetClusterOrderers noIP peerStore "" = .ok ([], []) :=
  ⟨rfl, rfl, no_orderer_no_result noIP peerStore "" rfl rfl⟩

/-! ## The addresses of the nodes of an ordering service (C15) -/

/-- The nodes of the implicit service carry the addresses resolved for their records; the
nodes of an explicit service carry an empty `PublicURL`, `PrivateURL` and `AdminURL`. -/
theorem GetClusterOrderers_urls (clientSet : Clientset) (oclient : OperatorClientset)
    (ns : String) (items : List FabricOrdererNode) (svcs : List FabricOrderingService)
    (orgs : List Organization) (orderers : List ClusterOrderingService)
    (hnodes : oclient.FabricOrdererNodes ns "" = .ok items)
    (hsvcs : oclient.FabricOrderingServices ns = .ok svcs)
    (h : GetClusterOrderers clientSet oclient ns = .ok (orgs, orderers)) :
    ∃ implicit explicit, orderers = implicit ++ explicit ∧
      (∀ s ∈ implicit, List.Forall₂ (fun n c =>
        c.PrivateURL = GetOrdererPrivateURL n ∧
        GetOrdererPublicURL clientSet n = .ok c.PublicURL ∧
        GetAdminOrdererPublicURL clientSet n = .ok c.AdminURL) items s.Orderers) ∧
      List.Forall₂ (fun svc e => e.Object = svc ∧
        ∀ c ∈ e.Orderers, c.PublicURL = "" ∧ c.PrivateURL = "" ∧ c.AdminURL = "")
        svcs explicit := by
  obtain ⟨implicit, explicit, himp, hex, hord, -⟩ :=
    (GetClusterOrderers_ok_iff clientSet oclient ns items svcs hnodes hsvcs orgs orderers).1 h
  refine ⟨implicit, explicit, hord, ?_, ?_⟩
  · intro s hs
    rcases (implicitOrderingServices_ok_iff clientSet items implicit).1 himp with
      ⟨-, rfl⟩ | ⟨first, rest, nodes, -, hall, rfl⟩
    · cases hs
    · rw [List.mem_singleton.1 hs]
      refine forall₂_of_ok (fun n c hc => ?_) hall
      obtain ⟨publicURL, adminURL, hp, ha, rfl⟩ :=
        (implicitOrdererNode_ok_iff clientSet n c).1 hc
      exact ⟨rfl, hp, ha⟩
  · refine forall₂_of_ok (fun svc e he => ?_) hex
    obtain ⟨res, -, rfl⟩ := (explicitOrderingService_ok_iff oclient ns svc e).1 he
    refine ⟨rfl, fun c hc => ?_⟩
    obtain ⟨n, -, rfl⟩ := List.mem_map.1 hc
    exact ⟨rfl, rfl, rfl⟩

/-- C15: the nodes of an explicit ordering service carry no address. At the store
`fullStore` with a discovery that answers, the orderer node `ord5` of namespace `ordns`
resolves to the public URL `ord5.example.com:443` and has the private URL
`ord5.ordns:7050`; in the implicit service returned by `GetClusterOrderers` it carries both,
in the explicit service `ordservice.ordns` its `PublicURL` and `PrivateURL` are empty. -/
theorem explicit_service_nodes_lack_urls :
    GetOrdererPublicURL withIP ordOwned = .ok "ord5.example.com:443" ∧
    GetOrdererPrivateURL ordOwned = "ord5.ordns:7050" ∧
    (GetClusterOrderers withIP fullStore "").map (fun r => r.2.map (fun s =>
        (s.Name, s.Orderers.map (fun c => (c.Name, c.PublicURL, c.PrivateURL))))) =
      .ok [("ord0.ordns",
              [("ord0.ordns", "ord0.example.com:443", "ord0.ordns:7050"),
               ("ord5.ordns", "ord5.example.com:443", "ord5.ordns:7050")]),
           ("ordservice.ordns", [("ord5.ordns", "", "")])] := by
  refine ⟨by decide, by decide, by decide⟩

/-! ## The implicit service and owned nodes (C16) -/

theorem forall₂_mem_left {α β : Type} {R : α → β → Prop} {l₁ : List α} {l₂ : List β}
    (h : List.Forall₂ R l₁ l₂) {x : α} (hx : x ∈ l₁) : ∃ y ∈ l₂, R x y := by
  induction h with
  | nil => cases hx
  | @cons a b l₁' l₂' hab _ ih =>
    rcases List.mem_cons.1 hx with rfl | hx
    · exact ⟨b, List.mem_cons_self _ _, hab⟩
    · obtain ⟨y, hy, hxy⟩ := ih hx
      exact ⟨y, List.mem_cons_of_mem _ hy, hxy⟩

theorem forall₂_map_name {α β : Type} {name : β → String} {fullName : α → String}
    {l₁ : List α} {l₂ : List β} (h : List.Forall₂ (fun x y => name y = fullName x) l₁ l₂) :
    l₂.map name = l₁.map fullName := by
  induction h with
  | nil => rfl
  | cons hab _ ih => simp only [List.map_cons, hab, ih]

/-- C16, as stated, fails. The store holds one orderer node, `ord5`, labelled
`release=ordservice`, and the ordering service `ordservice`: every listed node is owned.
`GetClusterOrderers` still returns an implicit service first, named `ord5.ordns` after that
node, and the node is in the `Orderers` of the implicit service as well as in those of the
explicit service `ordservice.ordns`. -/
theorem implicit_service_skips_owned_fails :
    ordOwned.ObjectMeta.Labels = [("release", "ordservice")] ∧
    ordService.ObjectMeta.Name = "ordservice" ∧
    (storeOf [] [] [ordOwned] [ordService]).FabricOrdererNodes "" "release=ordservice" =
      .ok [ordOwned] ∧
    (GetClusterOrderers withIP (storeOf [] [] [ordOwned] [ordService]) "").map
        (fun r => r.2.map (fun s => (s.Name, s.Orderers.map (fun c => c.Name)))) =
      .ok [("ord5.ordns", ["ord5.ordns"]), ("ordservice.ordns", ["ord5.ordns"])] := by
  refine ⟨rfl, rfl, by decide, by decide⟩

/-- C16, amended: in `GetClusterOrderers` the implicit ordering service is synthesized from
every listed orderer node, owned or not. For every store content on which the call
succeeds, the returned services are the implicit services followed by the explicit ones;
there is no implicit service when no orderer node is listed, and exactly one whenever at
least one is listed: it is named after the first listed node and its `Orderers` are all the
listed nodes, in order. The explicit services are those of the listed ordering-service
records, in order, each holding the nodes that the store selects by `release=<its name>`.
So an orderer node that the store selects for an explicit service is in that service's
`Orderers` and in the implicit service's `Orderers`. -/
theorem implicit_service_holds_every_node (clientSet : Clientset)
    (oclient : OperatorClientset) (ns : String) (items : List FabricOrdererNode)
    (svcs : List FabricOrderingService) (orgs : List Organization)
    (orderers : List ClusterOrderingService)
    (hnodes : oclient.FabricOrdererNodes ns "" = .ok items)
    (hsvcs : oclient.FabricOrderingServices ns = .ok svcs)
    (h : GetClusterOrderers clientSet oclient ns = .ok (orgs, orderers)) :
    ∃ implicit explicit, orderers = implicit ++ explicit ∧
      (items = [] → implicit = []) ∧
      (∀ first rest, items = first :: rest → ∃ s, implicit = [s] ∧ s.Name = first.FullName ∧
        s.Orderers.map (fun c => c.Name) = items.map (fun n => n.FullName)) ∧
      List.Forall₂ (fun svc e => e.Object = svc ∧ e.Name = svc.FullName ∧
        ∃ res, oclient.FabricOrdererNodes ns ("release=" ++ svc.ObjectMeta.Name) = .ok res ∧
          e.Orderers.map (fun c => c.Name) = res.map (fun n => n.FullName)) svcs explicit ∧
      (∀ n ∈ items, ∀ svc ∈ svcs, ∀ res,
        oclient.FabricOrdererNodes ns ("release=" ++ svc.ObjectMeta.Name) = .ok res →
        n ∈ res →
        (∃ s ∈ implicit, n.FullName ∈ s.Orderers.map (fun c => c.Name)) ∧
        (∃ e ∈ explicit, e.Object = svc ∧
          n.FullName ∈ e.Orderers.map (fun c => c.Name))) := by
  obtain ⟨implicit, explicit, himp, hex, hord, -⟩ :=
    (GetClusterOrderers_ok_iff clientSet oclient ns items svcs hnodes hsvcs orgs orderers).1 h
  have himplicit : ∀ first rest, items = first :: rest → ∃ s, implicit = [s] ∧
      s.Name = first.FullName ∧
      s.Orderers.map (fun c => c.Name) = items.map (fun n => n.FullName) := by
    intro first rest hitems
    rcases (implicitOrderingServices_ok_iff clientSet items implicit).1 himp with
      ⟨hnil, -⟩ | ⟨first', rest', nodes, hcons, hall, rfl⟩
    · rw [hnil] at hitems; cases hitems
    · rw [hcons] at hitems
      cases hitems
      refine ⟨_, rfl, rfl, forall₂_map_name (forall₂_of_ok (fun n c hc => ?_) hall)⟩
      obtain ⟨publicURL, adminURL, -, -, rfl⟩ :=
        (implicitOrdererNode_ok_iff clientSet n c).1 hc
      rfl
  have hexplicit : List.Forall₂ (fun svc e => e.Object = svc ∧ e.Name = svc.FullName ∧
      ∃ res, oclient.FabricOrdererNodes ns ("release=" ++ svc.ObjectMeta.Name) = .ok res ∧
        e.Orderers.map (fun c => c.Name) = res.map (fun n => n.FullName)) svcs explicit := by
    refine forall₂_of_ok (fun svc e he => ?_) hex
    obtain ⟨res, hres, rfl⟩ := (explicitOrderingService_ok_iff oclient ns svc e).1 he
    exact ⟨rfl, rfl, res, hres, by simp [List.map_map, Function.comp_def]⟩
  refine ⟨implicit, explicit, hord, ?_, himplicit, hexplicit, ?_⟩
  · intro hnil
    rcases (implicitOrderingServices_ok_iff clientSet items implicit).1 himp with
      ⟨-, h2⟩ | ⟨first, rest, nodes, hcons, -, -⟩
    · exact h2
    · rw [hnil] at hcons; cases hcons
  · intro n hn svc hsvc res hres hnres
    constructor
    · cases items with
      | nil => cases hn
      | cons first rest =>
        obtain ⟨s, hs, -, hnames⟩ := himplicit first rest rfl
        exact ⟨s, by rw [hs]; exact List.mem_singleton.2 rfl, by
          rw [hnames]; exact List.mem_map_of_mem _ hn⟩
    · obtain ⟨e, he, hobj, -, res', hres', hnames⟩ := forall₂_mem_left hexplicit hsvc
      rw [hres] at hres'
      cases hres'
      exact ⟨e, he, hobj, by rw [hnames]; exact List.mem_map_of_mem _ hnres⟩

/-- C16, amended, at the store `fullStore`: the owned node `ord5` is in the implicit service
and in the explicit service `ordservice`. -/
theorem implicit_service_holds_every_node_witness :
    GetClusterOrderers withIP fullStore "" = .ok (fullOrganizations, fullOrderers) ∧
    ∃ implicit explicit, fullOrderers = implicit ++ explicit ∧
      ([ord0, ordOwned] = [] → implicit = []) ∧
      (∀ first rest, [ord0, ordOwned] = first :: rest → ∃ s, implicit = [s] ∧
        s.Name = first.FullName ∧
        s.Orderers.map (fun c => c.Name) = [ord0, ordOwned].map (fun n => n.FullName)) ∧
      List.Forall₂ (fun svc e => e.Object = svc ∧ e.Name = svc.FullName ∧
        ∃ res, fullStore.FabricOrdererNodes "" ("release=" ++ svc.ObjectMeta.Name) = .ok res ∧
          e.Orderers.map (fun c => c.Name) = res.map (fun n => n.FullName))
        [ordService] explicit ∧
      (∀ n ∈ [ord0, ordOwned], ∀ svc ∈ [ordService], ∀ res,
        fullStore.FabricOrdererNodes "" ("release=" ++ svc.ObjectMeta.Name) = .ok res →
        n ∈ res →
        (∃ s ∈ implicit, n.FullName ∈ s.Orderers.map (fun c => c.Name)) ∧
        (∃ e ∈ explicit, e.Object = svc ∧
          n.FullName ∈ e.Orderers.map (fun c => c.Name))) :=
  ⟨rfl, implicit_service_holds_every_node withIP fullStore "" [ord0, ordOwned] [ordService]
    fullOrganizations fullOrderers rfl rfl rfl⟩

/-! ## The organizations of the orderers (C17) -/

/-- C17, as stated, fails. For the store `fullStore` the ordering services returned by
`GetClusterOrderers` hold the nodes `ord0.ordns` and `ord5.ordns`, and the two organizations
returned are both of MSP ID `OrdererMSP` and both have no orderer node: no node of a service
is in the `OrdererNodes` of an organization, and two organizations share their `MspID`. -/
theorem orderer_organizations_grouped_fails :
    GetClusterOrderers withIP fullStore "" = .ok (fullOrganizations, fullOrderers) ∧
    fullOrderers.map (fun s => s.Orderers.map (fun c => c.Name)) =
      [["ord0.ordns", "ord5.ordns"], ["ord5.ordns"]] ∧
    fullOrganizations.map (fun o => (o.Type_, o.MspID, o.OrdererNodes)) =
      [("ORDERER", "OrdererMSP", []), ("ORDERER", "OrdererMSP", [])] ∧
    ¬ (fullOrganizations.map (fun o => o.MspID)).Nodup ∧
    ¬ ∃ o ∈ fullOrganizations, clusterOrd0 ∈ o.OrdererNodes := by
  refine ⟨rfl, by decide, by decide, by decide, by decide⟩

/-- C17, amended: for every store content on which `GetClusterOrderers` succeeds, the
returned organizations are one for each returned ordering service, in the same order: the
organization of a service has type `ORDERER`, the `MSPID` of the service as its `MspID`, and
no orderer node and no peer. So the organizations do not hold the returned orderer nodes,
and two of them have the same `MspID` whenever their two services have the same `MSPID`. -/
theorem orderer_organizations_per_service (clientSet : Clientset)
    (oclient : OperatorClientset) (ns : String) (orgs : List Organization)
    (orderers : List ClusterOrderingService)
    (h : GetClusterOrderers clientSet oclient ns = .ok (orgs, orderers)) :
    List.Forall₂ (fun ord org => org.Type_ = OrdererType ∧ org.MspID = ord.MSPID ∧
      org.OrdererNodes = [] ∧ org.Peers = []) orderers orgs := by
  rw [GetClusterOrderers_organizations clientSet oclient ns orgs orderers h]
  clear h
  induction orderers with
  | nil => exact List.Forall₂.nil
  | cons ord rest ih => exact List.Forall₂.cons ⟨rfl, rfl, rfl, rfl⟩ ih

/-- C17, amended, at the store `fullStore`. -/
theorem orderer_organizations_per_service_witness :
    GetClusterOrderers withIP fullStore "" = .ok (fullOrganizations, fullOrderers) ∧
    List.Forall₂ (fun ord org => org.Type_ = OrdererType ∧ org.MspID = ord.MSPID ∧
      org.OrdererNodes = [] ∧ org.Peers = []) fullOrderers fullOrganizations :=
  ⟨rfl, orderer_organizations_per_service withIP fullStore "" fullOrganizations fullOrderers
    rfl⟩

/-! ## Lookup by host and port (C18) -/

theorem splitChars_ne_nil (sep : Char) (l : List Char) : splitChars sep l ≠ [] := by
  induction l with
  | nil => simp [splitChars]
  | cons c cs ih =>
    unfold splitChars
    split
    · simp
    · cases h : splitChars sep cs with
      | nil => exact absurd h ih
      | cons piece pieces => simp

theorem splitChars_of_not_mem (sep : Char) (l : List Char) (h : sep ∉ l) :
    splitChars sep l = [l] := by
  induction l with
  | nil => rfl
  | cons c cs ih =>
    rw [List.mem_cons, not_or] at h
    unfold splitChars
    rw [if_neg (fun hc => h.1 hc.symm), ih h.2]

theorem splitChars_append (sep : Char) (l r : List Char) (h : sep ∉ l) :
    splitChars sep (l ++ sep :: r) = l :: splitChars sep r := by
  induction l with
  | nil => simp [splitChars]
  | cons c cs ih =>
    rw [List.mem_cons, not_or] at h
    rw [List.cons_append, splitChars, if_neg (fun hc => h.1 hc.symm), ih h.2]

theorem splitChars_length (sep : Char) (l : List Char) :
    (splitChars sep l).length = l.count sep + 1 := by
  induction l with
  | nil => rfl
  | cons c cs ih =>
    unfold splitChars
    by_cases hc : c = sep
    · subst hc
      simp [ih]
    · rw [if_neg hc]
      have hcount : (c :: cs).count sep = cs.count sep := by
        rw [List.count_cons]
        simp [hc]
      rw [hcount, ← ih]
      cases h : splitChars sep cs with
      | nil => exact absurd h (splitChars_ne_nil sep cs)
      | cons piece pieces => simp

theorem splitHost_name_ns (name ns : String) (hname : '.' ∉ name.data)
    (hns : '.' ∉ ns.data) : splitHost (name ++ "." ++ ns) = (name, ns) := by
  have hdata : (name ++ "." ++ ns).data = name.data ++ '.' :: ns.data := by
    simp [String.data_append]
  have hc : containsDot (name ++ "." ++ ns) = true := by
    simp [containsDot, hdata]
  have hs : splitDot (name ++ "." ++ ns) = [name, ns] := by
    simp only [splitDot, hdata, splitChars_append '.' _ _ hname,
      splitChars_of_not_mem '.' _ hns, List.map_cons, List.map_nil]
  simp only [splitHost, hc, hs]

theorem splitHost_other (host : String) (h : host.data.count '.' ≠ 1) :
    splitHost host = (host, "") := by
  unfold splitHost
  split
  · rename_i first second hc hs
    exfalso
    apply h
    have hlen := splitChars_length '.' host.data
    have : (splitDot host).length = 2 := by rw [hs]; rfl
    simp only [splitDot, List.length_map] at this
    omega
  · rfl

theorem caMatches_iff (host cahost : String) (port : Int) (certAuth : ClusterCA) :
    (Contains certAuth.Spec.Hosts host || certAuth.Item.Name == cahost ||
      (certAuth.Status.NodePort != 7054 && certAuth.Status.NodePort == port)) = true ↔
      caMatches host cahost port certAuth := by
  have hcontains : certAuth.Spec.Hosts.contains host = true ↔ host ∈ certAuth.Spec.Hosts := by
    simp
  simp only [Contains, caMatches, Bool.or_eq_true, Bool.and_eq_true, beq_iff_eq,
    bne_iff_ne, hcontains, ne_eq]
  tauto

theorem find_first {α : Type} (p : α → Bool) (before after : List α) (c : α)
    (hbefore : ∀ b ∈ before, ¬ p b = true) (hc : p c = true) :
    (before ++ c :: after).find? p = some c := by
  induction before with
  | nil => simp [List.find?_cons, hc]
  | cons b rest ih =>
    have hb : p b = false := by
      simpa using hbefore b (List.mem_cons_self _ _)
    rw [List.cons_append, List.find?_cons, hb]
    exact ih (fun x hx => hbefore x (List.mem_cons_of_mem _ hx))

theorem GetCertAuthByURL_error (clientSet : Clientset) (oclient : OperatorClientset)
    (host : String) (port : Int) (err : String)
    (h : GetClusterCAs clientSet oclient (splitHost host).2 = .error err) :
    GetCertAuthByURL clientSet oclient host port = .error err := by
  unfold GetCertAuthByURL
  rcases hsplit : splitHost host with ⟨cahost, ns⟩
  rw [hsplit] at h
  simp only [h]

theorem GetCertAuthByURL_found (clientSet : Clientset) (oclient : OperatorClientset)
    (host : String) (port : Int) (certAuths before after : List ClusterCA) (c : ClusterCA)
    (h : GetClusterCAs clientSet oclient (splitHost host).2 = .ok certAuths)
    (hsplit : certAuths = before ++ c :: after)
    (hbefore : ∀ b ∈ before, ¬ caMatches host (splitHost host).1 port b)
    (hc : caMatches host (splitHost host).1 port c) :
    GetCertAuthByURL clientSet oclient host port = .ok c := by
  unfold GetCertAuthByURL
  rcases hs : splitHost host with ⟨cahost, ns⟩
  rw [hs] at h hbefore hc
  simp only [h, hsplit]
  rw [find_first _ before after c
    (fun b hb => by rw [caMatches_iff]; exact hbefore b hb)
    ((caMatches_iff host cahost port c).2 hc)]

theorem GetCertAuthByURL_not_found (clientSet : Clientset) (oclient : OperatorClientset)
    (host : String) (port : Int) (certAuths : List ClusterCA)
    (h : GetClusterCAs clientSet oclient (splitHost host).2 = .ok certAuths)
    (hnone : ∀ c ∈ certAuths, ¬ caMatches host (splitHost host).1 port c) :
    GetCertAuthByURL clientSet oclient host port =
      .error ("CA with host=" ++ host ++ " port=" ++ toString port ++ " not found") := by
  unfold GetCertAuthByURL
  rcases hs : splitHost host with ⟨cahost, ns⟩
  rw [hs] at h hnone
  simp only [h]
  rw [List.find?_eq_none.2 (fun c hc => by rw [caMatches_iff]; exact hnone c hc)]

/-- C18: `GetCertAuthByURL(host, port)` lists the certificate authorities through
`GetClusterCAs`, in the namespace `ns` and looking for the name `name` when the host is
`name.ns` with no other dot, in every namespace and looking for the whole host when the host
has no dot or more than one. It returns the first listed authority for which the host is one
of `Spec.Hosts`, or the record name is the name looked for, or `Status.NodePort` is the port
and is not 7054; an authority whose node-port is 7054 matches only through its hosts or its
name. When no listed authority matches, it fails with
`CA with host=<host> port=<port> not found`; when the listing fails, with the listing's
error. -/
theorem cert_auth_by_url :
    (∀ (name ns : String), '.' ∉ name.data → '.' ∉ ns.data →
        splitHost (name ++ "." ++ ns) = (name, ns)) ∧
    (∀ (host : String), host.data.count '.' ≠ 1 → splitHost host = (host, "")) ∧
    (∀ (clientSet : Clientset) (oclient : OperatorClientset) (host : String) (port : Int)
        (certAuths before after : List ClusterCA) (c : ClusterCA),
        GetClusterCAs clientSet oclient (splitHost host).2 = .ok certAuths →
        certAuths = before ++ c :: after →
        (∀ b ∈ before, ¬ caMatches host (splitHost host).1 port b) →
        caMatches host (splitHost host).1 port c →
        GetCertAuthByURL clientSet oclient host port = .ok c) ∧
    (∀ (host cahost : String) (port : Int) (c : ClusterCA), c.Status.NodePort = 7054 →
        (caMatches host cahost port c ↔ host ∈ c.Spec.Hosts ∨ c.Item.Name = cahost)) ∧
    (∀ (clientSet : Clientset) (oclient : OperatorClientset) (host : String) (port : Int)
        (certAuths : List ClusterCA),
        GetClusterCAs clientSet oclient (splitHost host).2 = .ok certAuths →
        (∀ c ∈ certAuths, ¬ caMatches host (splitHost host).1 port c) →
        GetCertAuthByURL clientSet oclient host port =
          .error ("CA with host=" ++ host ++ " port=" ++ toString port ++ " not found")) ∧
    (∀ (clientSet : Clientset) (oclient : OperatorClientset) (host : String) (port : Int)
        (err : String), GetClusterCAs clientSet oclient (splitHost host).2 = .error err →
        GetCertAuthByURL clientSet oclient host port = .error err) := by
  refine ⟨splitHost_name_ns, splitHost_other, GetCertAuthByURL_found, ?_,
    GetCertAuthByURL_not_found, GetCertAuthByURL_error⟩
  intro host cahost port c hport
  simp only [caMatches, hport, ne_eq, not_true_eq_false, and_false, or_false]

/-- C18 at the store `fullStore`: the host `ca1.org1` finds `ca1` of namespace `org1` by its
name, after `ca0`, which does not match; the host `other` with port 30054 finds `ca0` by its
node-port; the host `other` with port 7054 finds nothing. -/
theorem cert_auth_by_url_witness :
    splitHost "ca1.org1" = ("ca1", "org1") ∧
    splitHost "ca.example.com" = ("ca.example.com", "") ∧
    GetCertAuthByURL withIP fullStore "ca1.org1" 7054 = .ok clusterCABare ∧
    GetCertAuthByURL withIP fullStore "other" 30054 = .ok clusterCA0 ∧
    GetCertAuthByURL withIP fullStore "other" 7054 =
      .error "CA with host=other port=7054 not found" ∧
    GetCertAuthByURL noIP fullStore "ca1.org1" 7054 = .error "no public IP" :=
  ⟨cert_auth_by_url.1 "ca1" "org1" (by decide) (by decide),
   cert_auth_by_url.2.1 "ca.example.com" (by decide),
   cert_auth_by_url.2.2.1 withIP fullStore "ca1.org1" 7054 [clusterCA0, clusterCABare]
      [clusterCA0] [] clusterCABare (by decide) rfl (by decide) (by decide),
   cert_auth_by_url.2.2.1 withIP fullStore "other" 30054 [clusterCA0, clusterCABare]
      [] [clusterCABare] clusterCA0 (by decide) rfl (by decide) (by decide),
   cert_auth_by_url.2.2.2.2.1 withIP fullStore "other" 7054 [clusterCA0, clusterCABare]
      (by decide) (by decide),
   cert_auth_by_url.2.2.2.2.2 noIP fullStore "ca1.org1" 7054 "no public IP" (by decide)⟩

/-! ## The enroll identity of a mapped certificate authority (C19) -/

/-- C19: for every CA record whose address resolves, `MapClusterCA` succeeds, and it sets
`EnrollID` and `EnrollPWD` to the `Name` and `Pass` of the first identity of
`Spec.CA.Registry.Identities` when the list is not empty, whatever the identities after the
first are, and to empty strings when the list is empty. `MapClusterCA` fails exactly when
the address resolution fails, with its error: the registry never causes an error. -/
theorem enroll_identity_of_first :
    (∀ (clientSet : Clientset) (certAuth : FabricCA) (hostPort : HostPort),
        GetCAHostPort clientSet certAuth = .ok hostPort →
        ∃ c, MapClusterCA clientSet certAuth = .ok c ∧
          (∀ first rest, certAuth.Spec.CA.Registry.Identities = first :: rest →
            c.EnrollID = first.Name ∧ c.EnrollPWD = first.Pass) ∧
          (certAuth.Spec.CA.Registry.Identities = [] → c.EnrollID = "" ∧ c.EnrollPWD = "")) ∧
    (∀ (clientSet : Clientset) (certAuth : FabricCA) (err : String),
        MapClusterCA clientSet certAuth = .error err ↔
          GetCAHostPort clientSet certAuth = .error err) := by
  constructor
  · intro clientSet certAuth hostPort h
    simp only [MapClusterCA, GetCAPublicURL, h]
    refine ⟨_, rfl, ?_, ?_⟩
    · intro first rest hids
      rw [hids]
      exact ⟨rfl, rfl⟩
    · intro hids
      rw [hids]
      exact ⟨rfl, rfl⟩
  · intro clientSet certAuth err
    simp only [MapClusterCA, GetCAPublicURL]
    cases GetCAHostPort clientSet certAuth with
    | error e => simp
    | ok hostPort => simp

/-- C19 at a certificate authority with two registered identities and at one with none, with
a failing discovery that neither needs. -/
theorem enroll_identity_of_first_witness :
    (∃ c, MapClusterCA noIP caRegistered = .ok c ∧
      (∀ first rest, caRegistered.Spec.CA.Registry.Identities = first :: rest →
        c.EnrollID = first.Name ∧ c.EnrollPWD = first.Pass) ∧
      (caRegistered.Spec.CA.Registry.Identities = [] → c.EnrollID = "" ∧ c.EnrollPWD = "")) ∧
    (∃ c, MapClusterCA noIP ca0 = .ok c ∧
      (∀ first rest, ca0.Spec.CA.Registry.Identities = first :: rest →
        c.EnrollID = first.Name ∧ c.EnrollPWD = first.Pass) ∧
      (ca0.Spec.CA.Registry.Identities = [] → c.EnrollID = "" ∧ c.EnrollPWD = "")) ∧
    (MapClusterCA noIP caRegistered).map (fun c => (c.EnrollID, c.EnrollPWD)) =
      .ok ("enroll", "enrollpw") ∧
    (MapClusterCA noIP ca0).map (fun c => (c.EnrollID, c.EnrollPWD)) = .ok ("", "") :=
  ⟨enroll_identity_of_first.1 noIP caRegistered { Host := "ca4.example.com", Port := 443 } rfl,
   enroll_identity_of_first.1 noIP ca0 { Host := "ca0.example.com", Port := 443 } rfl,
   by decide, by decide⟩

end Helpers
